import Mathlib

/-!
Verification of the OceanAI mail-agent core.

A shallow embedding, in Lean 4, of the mail-triage pipeline of the
`OceanAI_Assignment2_Mail_Agent` repository: the JSON mailbox store
(`Data_Storage_Vault/add_mail.py`, `update_mail.py`, `delete_mail.py`), the
stage processors (`Agent_Brain/smart_categorizer.py`,
`action_item_extractor.py`, `AI_mail_drafter.py`) and the background
orchestrator (`Backend/mail_func.py`, `Backend/load_mail.py`).

Modelling conventions:
* Python/JSON values are the inductive `Val`; a mail record (a Python dict)
  is an association list `Rec` with insertion-order keys, mirroring dict
  iteration order.  Keys are assumed unique, as they are for Python dicts.
* The mailbox file is `Option Mailbox` (`none` = file does not exist).
* File I/O is pure: the on-disk document is threaded through explicitly.
  Lock acquisition is recorded as a boolean in each operation's result so
  that "returns before acquiring the lock" is expressible; lock timeouts
  and crash/atomic-rename behaviour are outside this model.
* `time.time()` and `time.sleep` are modelled by an integer clock counting
  milliseconds (so every duration of the source — 0.2s pauses, 0.5s
  throttle, `attempt * 1s` backoff, 60s quota backoff — is a whole number);
  each sleep advances the clock and is appended to a trace of durations.
* The Model Gateway (`connection_gateway.call`) returns a string or raises
  `ConnectionError`; it is modelled by an oracle `Nat → GResp` indexed by
  the number of gateway calls made so far in the process.
-/

set_option maxRecDepth 10000

namespace MailAgent

/-- JSON/Python values as stored in the mailbox document.  JSON numbers are
modelled as integers (no mail field of the repository holds a fractional
number); the JSON parser below rejects fractional literals. -/
inductive Val where
  | str (s : String)
  | int (n : Int)
  | bool (b : Bool)
  | null
  | list (l : List Val)
  | obj (fields : List (String × Val))
deriving Repr

/-- A Python dict / JSON object: association list with insertion order. -/
abbrev Rec := List (String × Val)

mutual

/-- Executable structural size of a value (fuel for `pyEq`). -/
def valSize : Val → Nat
  | .str _ => 1
  | .int _ => 1
  | .bool _ => 1
  | .null => 1
  | .list l => 1 + valListSize l
  | .obj l => 1 + valObjSize l

/-- Size of a list of values. -/
def valListSize : List Val → Nat
  | [] => 0
  | v :: rest => valSize v + valListSize rest

/-- Size of an object's field list. -/
def valObjSize : List (String × Val) → Nat
  | [] => 0
  | kv :: rest => valSize kv.2 + valObjSize rest

end

/-- Python `==` on values, with bounded fuel for the nested recursion.
`int`/`bool` compare numerically (Python `True == 1`); `dict` equality is
key-set based (insertion order irrelevant). -/
def pyEqF : Nat → Val → Val → Bool
  | 0, _, _ => false
  | Nat.succ f, a, b =>
    match a, b with
    | .str x, .str y => x == y
    | .int x, .int y => x == y
    | .bool x, .bool y => x == y
    | .bool x, .int y => (if x then (1 : Int) else 0) == y
    | .int x, .bool y => x == (if y then (1 : Int) else 0)
    | .null, .null => true
    | .list x, .list y =>
      x.length == y.length &&
        (x.zip y).all (fun p => pyEqF f p.1 p.2)
    | .obj x, .obj y =>
      x.length == y.length &&
        x.all (fun kv =>
          match y.find? (fun kv' => kv'.1 == kv.1) with
          | some kv' => pyEqF f kv.2 kv'.2
          | none => false)
    | _, _ => false

/-- Fuel bound sufficient for `pyEqF` to fully compare two values. -/
def pyEq (a b : Val) : Bool := pyEqF (valSize a + valSize b) a b

/-- Python `a == b` where either side may be `None` (a missing dict key). -/
def pyEqOpt : Option Val → Option Val → Bool
  | none, none => true
  | some a, some b => pyEq a b
  | _, _ => false

/-- Python truthiness of a value. -/
def truthy : Val → Bool
  | .str s => !(s == "")
  | .int n => !(n == 0)
  | .bool b => b
  | .null => false
  | .list l => !l.isEmpty
  | .obj l => !l.isEmpty

/-- Truthiness of `d.get(k)`-style results (`None` is falsy). -/
def truthyOpt : Option Val → Bool
  | none => false
  | some v => truthy v

/-- `d.get(k)`: first binding of the key, if any. -/
def recGet? : Rec → String → Option Val
  | [], _ => none
  | (k', v') :: rest, k => if k' == k then some v' else recGet? rest k

/-- `d.get(k, default)`. -/
def recGetD (r : Rec) (k : String) (d : Val) : Val :=
  (recGet? r k).getD d

/-- `k in d`. -/
def recHas (r : Rec) (k : String) : Bool :=
  (recGet? r k).isSome

/-- `d[k] = v`: replace the first binding in place, else append. -/
def recSet : Rec → String → Val → Rec
  | [], k, v => [(k, v)]
  | (k', v') :: rest, k, v =>
    if k' == k then (k, v) :: rest else (k', v') :: recSet rest k v

/-- `d.setdefault(k, v)`. -/
def recSetdefault (r : Rec) (k : String) (v : Val) : Rec :=
  if recHas r k then r else r ++ [(k, v)]

/-- Python `int(x)` on a value: succeeds on ints, bools and integer-looking
strings, fails (raises) otherwise. -/
def pyInt : Val → Option Int
  | .int n => some n
  | .bool b => some (if b then 1 else 0)
  | .str s => s.trim.toInt?
  | _ => none

/-- `int(x)` where `x` may be `None`. -/
def pyIntOpt : Option Val → Option Int
  | none => none
  | some v => pyInt v

/-- The mailbox document `{counter: ..., emails: [...]}`.  The counter is
read through `int(...)` by the store, so it is kept as an integer. -/
structure Mailbox where
  counter : Int
  emails : List Rec
deriving Repr

/-- The fresh document used when the mailbox file does not exist. -/
def emptyMailbox : Mailbox := ⟨0, []⟩

/-! ## Mailbox Store (`Data_Storage_Vault`) -/

/-- Required fields checked by `add_mail` before touching the file. -/
def requiredFields : List String := ["sender", "subject", "timestamp", "body"]

/-- Result of a store operation: outcome, resulting on-disk document
(`none` = file still absent), and whether the advisory lock was taken. -/
structure AddResult where
  result : Except String Int
  doc : Option Mailbox
  locked : Bool
deriving Repr

/-- Entry construction of `add_mail`: copy the caller's record, overwrite
`id`, then `setdefault` the three derived fields. -/
def addEntry (mail_obj : Rec) (new_id : Int) : Rec :=
  recSetdefault
    (recSetdefault
      (recSetdefault (recSet mail_obj "id" (.int new_id)) "category" (.str ""))
      "action_items" (.list []))
    "draftable" (.str "")

/-- `add_mail(mail_obj)` of `Data_Storage_Vault/add_mail.py`: validate the
required fields (before acquiring the lock), read or create the document,
assign `id = counter + 1`, fill defaults with `setdefault`, append, set
`counter` to the new id. -/
def add_mail (mail_obj : Rec) (doc : Option Mailbox) : AddResult :=
  match requiredFields.find? (fun k => !recHas mail_obj k) with
  | some k => ⟨.error ("Missing required field: " ++ k), doc, false⟩
  | none =>
    let data := doc.getD emptyMailbox
    let new_id := data.counter + 1
    let entry := addEntry mail_obj new_id
    ⟨.ok new_id, some ⟨new_id, data.emails ++ [entry]⟩, true⟩

/-- The id comparison used by `delete_mail`/`update_mail`:
`int(e.get("id", -1)) == int(mail_id)`, falling back to raw equality
`e.get("id") == mail_id` when the cast raises. -/
def idMatches (e : Rec) (mail_id : Val) : Bool :=
  match pyInt (recGetD e "id" (.int (-1))), pyInt mail_id with
  | some a, some b => a == b
  | _, _ => pyEqOpt (recGet? e "id") (some mail_id)

/-- `for idx, email in enumerate(new_emails, start=1): email["id"] = idx`. -/
def renumberFrom (i : Int) : List Rec → List Rec
  | [] => []
  | e :: rest => recSet e "id" (.int i) :: renumberFrom (i + 1) rest

/-- Renumbering step of `delete_mail`: ids are reassigned `1..N` in order. -/
def renumberEmails (l : List Rec) : List Rec := renumberFrom 1 l

structure DelResult where
  found : Bool
  doc : Option Mailbox
  locked : Bool
deriving Repr

/-- `delete_mail(mail_id)` of `Data_Storage_Vault/delete_mail.py`: returns
`False` without locking when the file is absent; removes every record whose
id matches, renumbers the survivors sequentially from 1 and sets `counter`
to the new count. -/
def delete_mail (mail_id : Val) (doc : Option Mailbox) : DelResult :=
  match doc with
  | none => ⟨false, none, false⟩
  | some data =>
    let new_emails := data.emails.filter (fun e => !idMatches e mail_id)
    if new_emails.length == data.emails.length then
      ⟨false, some data, true⟩
    else
      let renumbered := renumberEmails new_emails
      ⟨true, some ⟨(renumbered.length : Int), renumbered⟩, true⟩

/-- Merge loop of `update_mail`: every updated field is written except
`id`, which is skipped. -/
def applyUpdates (e : Rec) (updates : Rec) : Rec :=
  updates.foldl (fun acc kv => if kv.1 = "id" then acc else recSet acc kv.1 kv.2) e

/-- In-order search-and-update of the email list (loop with `break`). -/
def updateEmails (mail_id : Val) (updates : Rec) : List Rec → Bool × List Rec
  | [] => (false, [])
  | e :: rest =>
    if idMatches e mail_id then (true, applyUpdates e updates :: rest)
    else
      let r := updateEmails mail_id updates rest
      (r.1, e :: r.2)

structure UpdResult where
  found : Bool
  doc : Option Mailbox
  locked : Bool
deriving Repr

/-- `update_mail(mail_id, updates)` of `Data_Storage_Vault/update_mail.py`:
returns `False` without locking when the file is absent; merges the given
fields (never `id`) into the first matching record. -/
def update_mail (mail_id : Val) (updates : Rec) (doc : Option Mailbox) : UpdResult :=
  match doc with
  | none => ⟨false, none, false⟩
  | some data =>
    let r := updateEmails mail_id updates data.emails
    if r.1 then ⟨true, some ⟨data.counter, r.2⟩, true⟩
    else ⟨false, some data, true⟩

/-! ## Prompt-change reset rule (`Backend/load_mail.py`) -/

/-- `mail.get("category") == "draft"` (string equality; any non-string
category compares unequal). -/
def isDraftCategoryExact (mail : Rec) : Bool :=
  match recGet? mail "category" with
  | some (.str s) => s == "draft"
  | _ => false

/-- `mail.get("category") not in (None, "")`. -/
def categoryNotNoneOrEmpty (mail : Rec) : Bool :=
  match recGet? mail "category" with
  | none => false
  | some (.str s) => !(s == "")
  | some _ => true

/-- Per-mail action of `drop_categories_on_categorizer_prompt_change`. -/
def dropCategoryOfMail (mail : Rec) : Rec :=
  if isDraftCategoryExact mail then mail
  else if categoryNotNoneOrEmpty mail then recSet mail "category" (.str "")
  else mail

/-- `drop_categories_on_categorizer_prompt_change` of `Backend/load_mail.py`
as the pure mailbox transformation it applies before saving. -/
def drop_categories_on_categorizer_prompt_change (data : Mailbox) : Mailbox :=
  { data with emails := data.emails.map dropCategoryOfMail }

/-! ## Basic record lemmas -/

theorem recGet?_recSet_self (r : Rec) (k : String) (v : Val) :
    recGet? (recSet r k v) k = some v := by
  induction r with
  | nil => simp [recSet, recGet?]
  | cons hd tl ih =>
    obtain ⟨k', v'⟩ := hd
    by_cases h : k' = k
    · subst h; simp [recSet, recGet?]
    · simp [recSet, recGet?, h, ih]

theorem recGet?_recSet_ne (r : Rec) {k k' : String} (v : Val) (h : k' ≠ k) :
    recGet? (recSet r k v) k' = recGet? r k' := by
  have h' : k ≠ k' := Ne.symm h
  induction r with
  | nil => simp [recSet, recGet?, h']
  | cons hd tl ih =>
    obtain ⟨k₀, v₀⟩ := hd
    by_cases h0 : k₀ = k
    · subst h0; simp [recSet, recGet?, h']
    · simp [recSet, recGet?, h0, ih]

theorem recGet?_append_of_some (r₁ r₂ : Rec) (k : String) (v : Val)
    (h : recGet? r₁ k = some v) : recGet? (r₁ ++ r₂) k = some v := by
  induction r₁ with
  | nil => simp [recGet?] at h
  | cons hd tl ih =>
    obtain ⟨k₀, v₀⟩ := hd
    by_cases h0 : k₀ = k
    · subst h0; simp [recGet?] at h ⊢; exact h
    · simp [recGet?, h0] at h ⊢; exact ih h

theorem recGet?_append_of_none (r₁ r₂ : Rec) (k : String)
    (h : recGet? r₁ k = none) : recGet? (r₁ ++ r₂) k = recGet? r₂ k := by
  induction r₁ with
  | nil => simp
  | cons hd tl ih =>
    obtain ⟨k₀, v₀⟩ := hd
    by_cases h0 : k₀ = k
    · subst h0; simp [recGet?] at h
    · simp [recGet?, h0] at h ⊢; exact ih h

theorem recSetdefault_of_has (r : Rec) (k : String) (v : Val)
    (h : recHas r k = true) : recSetdefault r k v = r := by
  simp [recSetdefault, h]

theorem recGet?_recSetdefault_self_of_not (r : Rec) (k : String) (v : Val)
    (h : recHas r k = false) : recGet? (recSetdefault r k v) k = some v := by
  have hn : recGet? r k = none := by
    simpa [recHas, Option.isSome_iff_exists] using h
  simp only [recSetdefault, recHas, hn, Option.isSome_none, Bool.false_eq_true,
    if_false]
  rw [recGet?_append_of_none _ _ _ hn]
  simp [recGet?]

theorem recGet?_recSetdefault_ne (r : Rec) {k k' : String} (v : Val) (h : k' ≠ k) :
    recGet? (recSetdefault r k v) k' = recGet? r k' := by
  by_cases hh : recHas r k
  · rw [recSetdefault_of_has r k v hh]
  · simp only [recSetdefault, hh, if_false, Bool.false_eq_true]
    cases hv : recGet? r k' with
    | some w => rw [recGet?_append_of_some _ _ _ _ hv]
    | none =>
      rw [recGet?_append_of_none _ _ _ hv]
      simp [recGet?, hv, Ne.symm h]

theorem recGet?_recSetdefault_of_has (r : Rec) {k : String} (key : String) (v : Val)
    (h : recHas r k = true) :
    recGet? (recSetdefault r key v) k = recGet? r k := by
  by_cases hk : k = key
  · subst hk; rw [recSetdefault_of_has r k v h]
  · exact recGet?_recSetdefault_ne r v hk

theorem recHas_eq_isSome (r : Rec) (k : String) :
    recHas r k = (recGet? r k).isSome := rfl

/-! ## `addEntry` lemmas -/

theorem addEntry_id (m : Rec) (nid : Int) :
    recGet? (addEntry m nid) "id" = some (.int nid) := by
  unfold addEntry
  rw [recGet?_recSetdefault_ne _ _ (by decide),
    recGet?_recSetdefault_ne _ _ (by decide),
    recGet?_recSetdefault_ne _ _ (by decide),
    recGet?_recSet_self]

theorem addEntry_default_category (m : Rec) (nid : Int)
    (h : recHas m "category" = false) :
    recGet? (addEntry m nid) "category" = some (.str "") := by
  unfold addEntry
  have h1 : recGet? (recSet m "id" (.int nid)) "category" = recGet? m "category" :=
    recGet?_recSet_ne m _ (by decide)
  have h2 : recHas (recSet m "id" (.int nid)) "category" = false := by
    rw [recHas_eq_isSome, h1, ← recHas_eq_isSome]; exact h
  rw [recGet?_recSetdefault_ne _ _ (by decide),
    recGet?_recSetdefault_ne _ _ (by decide),
    recGet?_recSetdefault_self_of_not _ _ _ h2]

theorem addEntry_default_action_items (m : Rec) (nid : Int)
    (h : recHas m "action_items" = false) :
    recGet? (addEntry m nid) "action_items" = some (.list []) := by
  unfold addEntry
  have h1 : recGet? (recSet m "id" (.int nid)) "action_items" =
      recGet? m "action_items" := recGet?_recSet_ne m _ (by decide)
  have h2 : recGet?
      (recSetdefault (recSet m "id" (.int nid)) "category" (.str ""))
      "action_items" = recGet? m "action_items" := by
    rw [recGet?_recSetdefault_ne _ _ (by decide), h1]
  have h3 : recHas
      (recSetdefault (recSet m "id" (.int nid)) "category" (.str ""))
      "action_items" = false := by
    rw [recHas_eq_isSome, h2, ← recHas_eq_isSome]; exact h
  rw [recGet?_recSetdefault_ne _ _ (by decide),
    recGet?_recSetdefault_self_of_not _ _ _ h3]

theorem addEntry_default_draftable (m : Rec) (nid : Int)
    (h : recHas m "draftable" = false) :
    recGet? (addEntry m nid) "draftable" = some (.str "") := by
  unfold addEntry
  have h1 : recGet? (recSet m "id" (.int nid)) "draftable" =
      recGet? m "draftable" := recGet?_recSet_ne m _ (by decide)
  have h2 : recGet?
      (recSetdefault
        (recSetdefault (recSet m "id" (.int nid)) "category" (.str ""))
        "action_items" (.list [])) "draftable" = recGet? m "draftable" := by
    rw [recGet?_recSetdefault_ne _ _ (by decide),
      recGet?_recSetdefault_ne _ _ (by decide), h1]
  have h3 : recHas
      (recSetdefault
        (recSetdefault (recSet m "id" (.int nid)) "category" (.str ""))
        "action_items" (.list [])) "draftable" = false := by
    rw [recHas_eq_isSome, h2, ← recHas_eq_isSome]; exact h
  rw [recGet?_recSetdefault_self_of_not _ _ _ h3]

theorem addEntry_preserves (m : Rec) (nid : Int) (k : String)
    (hk : k ≠ "id") (hm : recHas m k = true) :
    recGet? (addEntry m nid) k = recGet? m k := by
  unfold addEntry
  have h1 : recGet? (recSet m "id" (.int nid)) k = recGet? m k :=
    recGet?_recSet_ne m _ hk
  have has1 : recHas (recSet m "id" (.int nid)) k = true := by
    rw [recHas_eq_isSome, h1, ← recHas_eq_isSome]; exact hm
  have h2 := recGet?_recSetdefault_of_has
    (recSet m "id" (.int nid)) "category" (.str "") has1
  have has2 : recHas (recSetdefault (recSet m "id" (.int nid)) "category" (.str "")) k
      = true := by
    rw [recHas_eq_isSome, h2, ← recHas_eq_isSome]; exact has1
  have h3 := recGet?_recSetdefault_of_has _ "action_items" (.list []) has2
  have has3 : recHas (recSetdefault
      (recSetdefault (recSet m "id" (.int nid)) "category" (.str ""))
      "action_items" (.list [])) k = true := by
    rw [recHas_eq_isSome, h3, ← recHas_eq_isSome]; exact has2
  have h4 := recGet?_recSetdefault_of_has _ "draftable" (.str "") has3
  rw [h4, h3, h2, h1]

/-- Concrete mail used by the witnesses. -/
def sampleMail : Rec :=
  [("sender", .str "tester@example.com"), ("subject", .str "Test Add Mail"),
   ("timestamp", .str "2025-11-20T12:00:00+05:30"), ("body", .str "This is a test email body.")]

/-- C5.  `add_mail` fails with a validation error exactly when a required
field (`sender`, `subject`, `timestamp`, `body`) is absent, leaving the
document unchanged (and untouched: validation precedes the lock); otherwise
it assigns `id = counter + 1`, defaults `category`/`action_items`/`draftable`
only when the caller did not supply them, preserves all caller fields other
than `id`, appends the entry, sets `counter` to the new id and returns it. -/
theorem add_mail_validation_and_defaults (m : Rec) (data : Mailbox) :
    ((∃ k ∈ requiredFields, recHas m k = false) →
        ∃ msg, add_mail m (some data) = ⟨.error msg, some data, false⟩) ∧
    ((∀ k ∈ requiredFields, recHas m k = true) →
        add_mail m (some data) =
          ⟨.ok (data.counter + 1),
           some ⟨data.counter + 1, data.emails ++ [addEntry m (data.counter + 1)]⟩,
           true⟩ ∧
        recGet? (addEntry m (data.counter + 1)) "id" =
          some (.int (data.counter + 1)) ∧
        (recHas m "category" = false →
          recGet? (addEntry m (data.counter + 1)) "category" = some (.str "")) ∧
        (recHas m "action_items" = false →
          recGet? (addEntry m (data.counter + 1)) "action_items" = some (.list [])) ∧
        (recHas m "draftable" = false →
          recGet? (addEntry m (data.counter + 1)) "draftable" = some (.str "")) ∧
        (∀ k, k ≠ "id" → recHas m k = true →
          recGet? (addEntry m (data.counter + 1)) k = recGet? m k)) := by
  constructor
  · rintro ⟨k, hk, hmiss⟩
    have : requiredFields.find? (fun k => !recHas m k) ≠ none := by
      intro hnone
      have := List.find?_eq_none.mp hnone k hk
      simp [hmiss] at this
    rcases Option.ne_none_iff_exists'.mp this with ⟨k₀, hk₀⟩
    exact ⟨"Missing required field: " ++ k₀, by simp [add_mail, hk₀]⟩
  · intro hall
    have hfind : requiredFields.find? (fun k => !recHas m k) = none := by
      apply List.find?_eq_none.mpr
      intro k hk
      simp [hall k hk]
    refine ⟨by simp [add_mail, hfind], addEntry_id m _,
      fun h => addEntry_default_category m _ h,
      fun h => addEntry_default_action_items m _ h,
      fun h => addEntry_default_draftable m _ h,
      fun k hk hm => addEntry_preserves m _ k hk hm⟩

/-- Witness for C5 at a concrete record and document. -/
theorem add_mail_validation_and_defaults_witness :
    (∀ k ∈ requiredFields, recHas sampleMail k = true) ∧
    add_mail sampleMail (some emptyMailbox) =
      ⟨.ok (emptyMailbox.counter + 1),
       some ⟨emptyMailbox.counter + 1,
             emptyMailbox.emails ++ [addEntry sampleMail (emptyMailbox.counter + 1)]⟩,
       true⟩ :=
  ⟨by decide, ((add_mail_validation_and_defaults sampleMail emptyMailbox).2 (by decide)).1⟩

/-- C10.  On a missing mailbox file, `update_mail` and `delete_mail` return
`False` for every id, without creating the file and without acquiring the
lock, while `add_mail` (with a valid record) creates a fresh document from
`{counter: 0, emails: []}` and inserts the record with id 1. -/
theorem missing_file_edge_cases :
    (∀ (i : Val) (u : Rec), update_mail i u none = ⟨false, none, false⟩) ∧
    (∀ i : Val, delete_mail i none = ⟨false, none, false⟩) ∧
    (∀ m : Rec, (∀ k ∈ requiredFields, recHas m k = true) →
        add_mail m none = ⟨.ok 1, some ⟨1, [addEntry m 1]⟩, true⟩ ∧
        recGet? (addEntry m 1) "id" = some (.int 1)) := by
  refine ⟨fun _ _ => rfl, fun _ => rfl, fun m hall => ?_⟩
  have hfind : requiredFields.find? (fun k => !recHas m k) = none := by
    apply List.find?_eq_none.mpr
    intro k hk
    simp [hall k hk]
  exact ⟨by simp [add_mail, hfind, emptyMailbox], addEntry_id m 1⟩

/-- Witness for C10 at concrete inputs. -/
theorem missing_file_edge_cases_witness :
    update_mail (.int 7) [("subject", .str "x")] none = ⟨false, none, false⟩ ∧
    delete_mail (.int 7) none = ⟨false, none, false⟩ ∧
    add_mail sampleMail none = ⟨.ok 1, some ⟨1, [addEntry sampleMail 1]⟩, true⟩ :=
  ⟨missing_file_edge_cases.1 (.int 7) [("subject", .str "x")],
   missing_file_edge_cases.2.1 (.int 7),
   (missing_file_edge_cases.2.2 sampleMail (by decide)).1⟩

/-! ## `update_mail` lemmas -/

theorem applyUpdates_cons (e : Rec) (kv : String × Val) (rest : Rec) :
    applyUpdates e (kv :: rest) =
      applyUpdates (if kv.1 = "id" then e else recSet e kv.1 kv.2) rest := by
  simp [applyUpdates]

theorem applyUpdates_id (e u : Rec) :
    recGet? (applyUpdates e u) "id" = recGet? e "id" := by
  induction u generalizing e with
  | nil => rfl
  | cons kv rest ih =>
    rw [applyUpdates_cons]
    by_cases h : kv.1 = "id"
    · rw [if_pos h]; exact ih e
    · rw [if_neg h, ih, recGet?_recSet_ne _ _ (Ne.symm h)]

theorem applyUpdates_frame (e u : Rec) (k : String)
    (h : ∀ kv ∈ u, kv.1 ≠ k) :
    recGet? (applyUpdates e u) k = recGet? e k := by
  induction u generalizing e with
  | nil => rfl
  | cons kv rest ih =>
    rw [applyUpdates_cons]
    have hk : kv.1 ≠ k := h kv (by simp)
    have hrest : ∀ kv' ∈ rest, kv'.1 ≠ k := fun kv' h' => h kv' (by simp [h'])
    by_cases hid : kv.1 = "id"
    · rw [if_pos hid]; exact ih e hrest
    · rw [if_neg hid, ih _ hrest, recGet?_recSet_ne _ _ (Ne.symm hk)]

theorem applyUpdates_mem (e u : Rec) (k : String) (v : Val)
    (hmem : (k, v) ∈ u) (hk : k ≠ "id") (hnd : (u.map Prod.fst).Nodup) :
    recGet? (applyUpdates e u) k = some v := by
  induction u generalizing e with
  | nil => simp at hmem
  | cons kv rest ih =>
    rw [applyUpdates_cons]
    rw [List.map_cons, List.nodup_cons] at hnd
    rcases List.mem_cons.mp hmem with heq | hrest
    · subst heq
      rw [if_neg hk]
      have hnotin : ∀ kv' ∈ rest, kv'.1 ≠ k := by
        intro kv' h' hbad
        exact hnd.1 (by simpa [hbad] using List.mem_map_of_mem Prod.fst h')
      rw [applyUpdates_frame _ _ _ hnotin, recGet?_recSet_self]
    · by_cases hid : kv.1 = "id"
      · rw [if_pos hid]; exact ih e hrest hnd.2
      · rw [if_neg hid]; exact ih _ hrest hnd.2

theorem updateEmails_not_found (i : Val) (u : Rec) (l : List Rec)
    (h : ∀ e ∈ l, idMatches e i = false) :
    updateEmails i u l = (false, l) := by
  induction l with
  | nil => rfl
  | cons e rest ih =>
    have he : idMatches e i = false := h e (by simp)
    have hrest := ih (fun e' h' => h e' (by simp [h']))
    simp [updateEmails, he, hrest]

theorem updateEmails_found (i : Val) (u : Rec) (pre : List Rec) (e : Rec)
    (post : List Rec) (hpre : ∀ e' ∈ pre, idMatches e' i = false)
    (he : idMatches e i = true) :
    updateEmails i u (pre ++ e :: post) =
      (true, pre ++ applyUpdates e u :: post) := by
  induction pre with
  | nil => simp [updateEmails, he]
  | cons p rest ih =>
    have hp : idMatches p i = false := hpre p (by simp)
    have := ih (fun e' h' => hpre e' (by simp [h']))
    simp [updateEmails, hp, this]

/-- C8.  `update_mail` merges exactly the supplied fields into the first
record whose id matches, never writes the `id` field (even when supplied),
leaves all other fields of that record, every other record and the counter
unchanged, and returns `False` (with the document untouched) when no record
matches; it is a total function of the document, so a missing id never
raises. -/
theorem update_mail_merge_frame (i : Val) (u : Rec) (data : Mailbox) :
    ((∀ e ∈ data.emails, idMatches e i = false) →
        update_mail i u (some data) = ⟨false, some data, true⟩) ∧
    (∀ pre e post, data.emails = pre ++ e :: post →
        (∀ e' ∈ pre, idMatches e' i = false) → idMatches e i = true →
        update_mail i u (some data) =
          ⟨true, some ⟨data.counter, pre ++ applyUpdates e u :: post⟩, true⟩ ∧
        recGet? (applyUpdates e u) "id" = recGet? e "id" ∧
        (∀ k, (∀ kv ∈ u, kv.1 ≠ k) →
          recGet? (applyUpdates e u) k = recGet? e k) ∧
        (∀ k v, (k, v) ∈ u → k ≠ "id" → (u.map Prod.fst).Nodup →
          recGet? (applyUpdates e u) k = some v)) := by
  constructor
  · intro h
    simp [update_mail, updateEmails_not_found i u data.emails h]
  · intro pre e post hsplit hpre he
    refine ⟨?_, applyUpdates_id e u, fun k hk => applyUpdates_frame e u k hk,
      fun k v hm hk hnd => applyUpdates_mem e u k v hm hk hnd⟩
    simp [update_mail, hsplit, updateEmails_found i u pre e post hpre he]

/-- Witness for C8: a concrete update that touches `subject`, attempts to
overwrite `id`, and leaves the sibling record alone. -/
theorem update_mail_merge_frame_witness :
    idMatches [("id", .int 2), ("subject", .str "old")] (.int 2) = true ∧
    update_mail (.int 2) [("id", .int 99), ("subject", .str "new")]
        (some ⟨2, [[("id", .int 1)], [("id", .int 2), ("subject", .str "old")]]⟩) =
      ⟨true,
       some ⟨2, [[("id", .int 1)],
                 applyUpdates [("id", .int 2), ("subject", .str "old")]
                   [("id", .int 99), ("subject", .str "new")]]⟩, true⟩ := by
  refine ⟨by decide, ?_⟩
  have h := ((update_mail_merge_frame (.int 2) [("id", .int 99), ("subject", .str "new")]
      ⟨2, [[("id", .int 1)], [("id", .int 2), ("subject", .str "old")]]⟩).2
      [[("id", .int 1)]] [("id", .int 2), ("subject", .str "old")] [] rfl
      (by decide) (by decide)).1
  simpa using h

/-- C9.  The categorization-prompt reset maps every mail through
`dropCategoryOfMail`: a mail whose category is a non-empty string other
than `"draft"` gets category `""` with every other field untouched, a mail
with category `"draft"` is returned unchanged, and the counter and record
order are preserved. -/
theorem categorization_reset_rule (data : Mailbox) :
    (drop_categories_on_categorizer_prompt_change data).counter = data.counter ∧
    (drop_categories_on_categorizer_prompt_change data).emails =
      data.emails.map dropCategoryOfMail ∧
    (∀ (mail : Rec) (s : String),
        recGet? mail "category" = some (.str s) → s ≠ "" → s ≠ "draft" →
        recGet? (dropCategoryOfMail mail) "category" = some (.str "") ∧
        (∀ k, k ≠ "category" →
          recGet? (dropCategoryOfMail mail) k = recGet? mail k)) ∧
    (∀ mail : Rec, recGet? mail "category" = some (.str "draft") →
        dropCategoryOfMail mail = mail) := by
  refine ⟨rfl, rfl, ?_, ?_⟩
  · intro mail s hs hne hdraft
    have hd : isDraftCategoryExact mail = false := by
      simp [isDraftCategoryExact, hs, hdraft]
    have hc : categoryNotNoneOrEmpty mail = true := by
      simp [categoryNotNoneOrEmpty, hs, hne]
    constructor
    · simp [dropCategoryOfMail, hd, hc, recGet?_recSet_self]
    · intro k hk
      simp [dropCategoryOfMail, hd, hc, recGet?_recSet_ne mail _ hk]
  · intro mail hdraft
    have hd : isDraftCategoryExact mail = true := by
      simp [isDraftCategoryExact, hdraft]
    simp [dropCategoryOfMail, hd]

/-- Witness for C9: a `"work"` mail is reset, a `"draft"` mail is kept. -/
theorem categorization_reset_rule_witness :
    recGet? [("id", .int 1), ("category", .str "work")] "category" =
      some (.str "work") ∧
    recGet? (dropCategoryOfMail [("id", .int 1), ("category", .str "work")])
      "category" = some (.str "") ∧
    dropCategoryOfMail [("id", .int 2), ("category", .str "draft")] =
      [("id", .int 2), ("category", .str "draft")] := by
  refine ⟨rfl, ?_, ?_⟩
  · exact (((categorization_reset_rule ⟨0, []⟩).2.2.1
      [("id", .int 1), ("category", .str "work")] "work" rfl
      (by decide) (by decide)).1)
  · exact ((categorization_reset_rule ⟨0, []⟩).2.2.2
      [("id", .int 2), ("category", .str "draft")] rfl)

/-! ## C1: id contiguity across add/delete sequences -/

/-- A store operation at the public interface of the mailbox store. -/
inductive StoreOp where
  | add (m : Rec)
  | del (i : Val)

/-- Effect of one operation on the on-disk document (a failed validation or
a not-found delete leaves the document as it was). -/
def applyOp (doc : Option Mailbox) : StoreOp → Option Mailbox
  | .add m => (add_mail m doc).doc
  | .del i => (delete_mail i doc).doc

/-- Run a sequence of operations against an initially missing mailbox. -/
def runOps (ops : List StoreOp) : Option Mailbox :=
  ops.foldl applyOp none

/-- The id column `1, 2, ..., n` as stored in the records. -/
def contiguousIds (n : Nat) : List (Option Val) :=
  (List.range n).map (fun k : Nat => some (.int (1 + (k : Int))))

/-- The contiguity invariant of a mailbox document. -/
def IdInvariant (mb : Mailbox) : Prop :=
  mb.emails.map (fun e => recGet? e "id") = contiguousIds mb.emails.length ∧
    mb.counter = (mb.emails.length : Int)

/-- Documents reachable by the store: a missing file trivially satisfies
the invariant. -/
def IdInvariantOpt : Option Mailbox → Prop
  | none => True
  | some mb => IdInvariant mb

theorem renumberFrom_ids (l : List Rec) (i : Int) :
    (renumberFrom i l).map (fun e => recGet? e "id") =
      (List.range l.length).map (fun k => some (.int (i + k))) := by
  induction l generalizing i with
  | nil => rfl
  | cons e rest ih =>
    simp only [renumberFrom, List.map_cons, List.length_cons,
      List.range_succ_eq_map, List.map_map]
    refine congrArg₂ _ (by simp [recGet?_recSet_self]) ?_
    rw [ih (i + 1)]
    apply List.map_congr_left
    intro k _
    simp [Function.comp]
    ring_nf

theorem renumberFrom_length (l : List Rec) (i : Int) :
    (renumberFrom i l).length = l.length := by
  induction l generalizing i with
  | nil => rfl
  | cons e rest ih => simp [renumberFrom, ih]

theorem contiguousIds_succ (n : Nat) :
    contiguousIds (n + 1) = contiguousIds n ++ [some (.int (1 + (n : Int)))] := by
  simp [contiguousIds, List.range_succ]

theorem emptyMailbox_invariant : IdInvariant emptyMailbox := by
  constructor <;> rfl

theorem add_mail_preserves_invariant (m : Rec) (doc : Option Mailbox)
    (h : IdInvariantOpt doc) : IdInvariantOpt (add_mail m doc).doc := by
  unfold add_mail
  cases hfind : requiredFields.find? (fun k => !recHas m k) with
  | some k => exact h
  | none =>
    have hdata : IdInvariant (doc.getD emptyMailbox) := by
      cases doc with
      | none => exact emptyMailbox_invariant
      | some mb => exact h
    obtain ⟨hids, hcnt⟩ := hdata
    constructor
    · show (_ ++ [addEntry m _]).map _ = _
      rw [List.map_append, hids]
      simp only [List.map_cons, List.map_nil, addEntry_id, List.length_append,
        List.length_cons, List.length_nil, Nat.add_zero]
      rw [contiguousIds_succ]
      have hc : (doc.getD emptyMailbox).counter + 1 =
          1 + ((doc.getD emptyMailbox).emails.length : Int) := by
        rw [hcnt]; ring
      rw [hc]
    · show ((doc.getD emptyMailbox).counter + 1) = _
      simp only [List.length_append, List.length_cons, List.length_nil, Nat.add_zero]
      rw [hcnt]
      push_cast
      ring

theorem delete_mail_preserves_invariant (i : Val) (doc : Option Mailbox)
    (h : IdInvariantOpt doc) : IdInvariantOpt (delete_mail i doc).doc := by
  unfold delete_mail
  cases doc with
  | none => trivial
  | some data =>
    by_cases hlen :
        (data.emails.filter (fun e => !idMatches e i)).length = data.emails.length
    · simpa [hlen] using h
    · have hne : ((data.emails.filter (fun e => !idMatches e i)).length ==
          data.emails.length) = false := by simp [hlen]
      simp only [hne, Bool.false_eq_true, if_false]
      constructor
      · show (renumberEmails _).map _ = _
        rw [renumberEmails, renumberFrom_ids, renumberFrom_length]
        simp [contiguousIds]
      · show ((renumberEmails _).length : Int) = _
        simp [renumberEmails, renumberFrom_length]

theorem applyOp_preserves_invariant (doc : Option Mailbox) (op : StoreOp)
    (hdoc : IdInvariantOpt doc) : IdInvariantOpt (applyOp doc op) := by
  cases op with
  | add m => exact add_mail_preserves_invariant m doc hdoc
  | del i => exact delete_mail_preserves_invariant i doc hdoc

theorem foldl_applyOp_invariant (ops : List StoreOp) :
    ∀ (start : Option Mailbox), IdInvariantOpt start →
      IdInvariantOpt (ops.foldl applyOp start) := by
  induction ops with
  | nil => intro start hs; exact hs
  | cons op rest ih =>
    intro start hs
    exact ih (applyOp start op) (applyOp_preserves_invariant start op hs)

/-- C1.  Starting from an absent (empty) mailbox, any sequence of
`add_mail`/`delete_mail` operations maintains the contiguity invariant:
whenever the document exists, the records' `id` column is exactly
`1, 2, ..., N` for `N` the number of records, and `counter = N` (after an
add the counter equals the freshly assigned id, which is that same `N`). -/
theorem id_contiguity_invariant (ops : List StoreOp) (mb : Mailbox)
    (h : runOps ops = some mb) :
    mb.emails.map (fun e => recGet? e "id") = contiguousIds mb.emails.length ∧
      mb.counter = (mb.emails.length : Int) := by
  have hinv : IdInvariantOpt (runOps ops) := foldl_applyOp_invariant ops none trivial
  rw [h] at hinv
  exact hinv

/-- The document reached by two adds followed by deleting id 1. -/
def afterTwoAddsOneDel : Mailbox :=
  ⟨1, [[("sender", .str "tester@example.com"), ("subject", .str "Test Add Mail"),
        ("timestamp", .str "2025-11-20T12:00:00+05:30"),
        ("body", .str "This is a test email body."),
        ("id", .int 1), ("category", .str ""), ("action_items", .list []),
        ("draftable", .str "")]]⟩

/-- Witness for C1: two adds followed by deleting id 1. -/
theorem id_contiguity_invariant_witness :
    runOps [.add sampleMail, .add sampleMail, .del (.int 1)] =
      some afterTwoAddsOneDel ∧
    afterTwoAddsOneDel.emails.map (fun e => recGet? e "id") =
      contiguousIds afterTwoAddsOneDel.emails.length ∧
    afterTwoAddsOneDel.counter = (afterTwoAddsOneDel.emails.length : Int) := by
  have h : runOps [.add sampleMail, .add sampleMail, .del (.int 1)] =
      some afterTwoAddsOneDel := rfl
  exact ⟨h, id_contiguity_invariant _ afterTwoAddsOneDel h⟩

/-! ## String utilities mirroring the Python `re`/`str` operations used by
`AI_mail_drafter.py`.  Python's `\s`, `\w` and `str.strip` are modelled on
their ASCII subsets (every string the repository feeds through these
functions is ASCII). -/

/-- Python `\s` (chars of `string.whitespace`). -/
def isPySpace (c : Char) : Bool :=
  [' ', '\t', '\n', '\r', '\x0b', '\x0c'].contains c

/-- Python `\w`. -/
def isWordChar (c : Char) : Bool := c == '_' || c.isAlphanum

/-- Characters of the separator class `[-*_]`. -/
def isRuleChar (c : Char) : Bool := ['-', '*', '_'].contains c

/-- `str.strip()` on a char list. -/
def pyStripList (cs : List Char) : List Char :=
  ((cs.dropWhile isPySpace).reverse.dropWhile isPySpace).reverse

/-- `str.strip()`. -/
def pyStrip (s : String) : String := String.mk (pyStripList s.toList)

/-- `str.replace("\r\n", "\n")` (left-to-right, non-overlapping). -/
def normalizeNewlines : List Char → List Char
  | '\r' :: '\n' :: rest => '\n' :: normalizeNewlines rest
  | c :: rest => c :: normalizeNewlines rest
  | [] => []

/-- Case-insensitive literal match (pattern given in lowercase); returns
the rest of the input on success. -/
def matchCI : List Char → List Char → Option (List Char)
  | [], cs => some cs
  | _, [] => none
  | p :: ps, c :: cs => if c.toLower == p then matchCI ps cs else none

/-- `t[a:b]` on a char list. -/
def sliceList (cs : List Char) (a b : Nat) : List Char :=
  (cs.drop a).take (b - a)

/-- Index of the last `'\n'` in a char list, if any. -/
def lastNewlineIdx (cs : List Char) : Option Nat :=
  ((cs.enum.filter (fun p => p.2 == '\n')).map Prod.fst).getLast?

/-- Match `Option\s*(?:#?\s*)?\d+\b` (case-insensitive) at the head of the
input, the head being preceded by a word boundary; returns the length of
the match. -/
def tryOptionLen (prevIsWord : Bool) (cs : List Char) : Option Nat :=
  if prevIsWord then none
  else
    match matchCI "option".toList cs with
    | none => none
    | some rest1 =>
      let ws1 := rest1.takeWhile isPySpace
      let rest2 := rest1.drop ws1.length
      let hash :=
        match rest2 with
        | '#' :: r => some (r.takeWhile isPySpace).length
        | _ => none
      let hashLen := match hash with | some w => 1 + w | none => 0
      let rest3 := rest2.drop hashLen
      let digits := rest3.takeWhile Char.isDigit
      if digits.isEmpty then none
      else
        match rest3.drop digits.length with
        | c :: _ =>
          if isWordChar c then none
          else some (6 + ws1.length + hashLen + digits.length)
        | [] => some (6 + ws1.length + hashLen + digits.length)

/-- `re.finditer(r"\bOption\s*(?:#?\s*)?(\d+)\b", ..., re.IGNORECASE)`:
start positions of the non-overlapping matches, left to right.  After a
match the scan resumes past it (the last matched char is a digit, hence a
word char). -/
def optionScan : Nat → Nat → Bool → List Char → List Nat
  | 0, _, _, _ => []
  | _, _, _, [] => []
  | fuel + 1, pos, prevIsWord, c :: rest =>
    match tryOptionLen prevIsWord (c :: rest) with
    | some len =>
      pos :: optionScan fuel (pos + len) true ((c :: rest).drop len)
    | none => optionScan fuel (pos + 1) (isWordChar c) rest

/-- All `Option <n>` match start positions of a string. -/
def optionStarts (cs : List Char) : List Nat :=
  optionScan (cs.length + 1) 0 false cs

/-- `re.sub(r"^\s*Option\s*(?:#?\s*)?\d+[:\-\)]?\s*", "", ...)` — anchored,
so at most one removal at the very start. -/
def stripOptionLabel (cs : List Char) : List Char :=
  let ws0 := cs.dropWhile isPySpace
  match matchCI "option".toList ws0 with
  | none => cs
  | some r1 =>
    let r2 := r1.dropWhile isPySpace
    let r3 :=
      match r2 with
      | '#' :: r => r.dropWhile isPySpace
      | _ => r2
    let digits := r3.takeWhile Char.isDigit
    if digits.isEmpty then cs
    else
      let r4 := r3.drop digits.length
      let r5 :=
        match r4 with
        | c :: r => if c == ':' || c == '-' || c == ')' then r else r4
        | [] => r4
      r5.dropWhile isPySpace

/-- Match `\n\s*[-*_]{3,}\s*\n` at the head of the input (the `\s*` runs
are the maximal whitespace runs; the trailing greedy `\s*\n` consumes up
to and including the last newline of the trailing run); returns the match
length. -/
def trySepLen (cs : List Char) : Option Nat :=
  match cs with
  | '\n' :: rest =>
    let ws1 := rest.takeWhile isPySpace
    let r2 := rest.drop ws1.length
    let dashes := r2.takeWhile isRuleChar
    if dashes.length < 3 then none
    else
      let r3 := r2.drop dashes.length
      let ws2 := r3.takeWhile isPySpace
      match lastNewlineIdx ws2 with
      | none => none
      | some j => some (1 + ws1.length + dashes.length + j + 1)
  | _ => none

/-- `re.split(r"\n\s*[-*_]{3,}\s*\n", t)`. -/
def sepSplit : Nat → List Char → List Char → List String
  | 0, cs, acc => [String.mk (acc.reverse ++ cs)]
  | _, [], acc => [String.mk acc.reverse]
  | fuel + 1, c :: rest, acc =>
    match trySepLen (c :: rest) with
    | some len => String.mk acc.reverse :: sepSplit fuel ((c :: rest).drop len) []
    | none => sepSplit fuel rest (c :: acc)

/-- Separator-delimited blocks of a string. -/
def sepParts (cs : List Char) : List String :=
  sepSplit (cs.length + 1) cs []

/-- Match `\s*(?:d[\.\)])\s+` at a line start, for the given digit. -/
def tryNumAt (digit : Char) (cs : List Char) : Bool :=
  match cs.dropWhile isPySpace with
  | d :: sep :: c :: _ =>
    d == digit && (sep == '.' || sep == ')') && isPySpace c
  | _ => false

/-- `re.search(r"(?m)^\s*(?:d[\.\)])\s+", t)`: position of the leftmost
line start whose tail matches. -/
def numScan (digit : Char) : Nat → Bool → List Char → Option Nat
  | _, _, [] => none
  | pos, isLineStart, c :: rest =>
    if isLineStart && tryNumAt digit (c :: rest) then some pos
    else numScan digit (pos + 1) (c == '\n') rest

/-- Leftmost numbered-list marker for a digit. -/
def findNumStart (digit : Char) (cs : List Char) : Option Nat :=
  numScan digit 0 true cs

/-- `re.sub(r"^\s*(?:1[\.\)])\s*", "", ...)` — anchored single removal. -/
def stripNumLabel (cs : List Char) : List Char :=
  match cs.dropWhile isPySpace with
  | d :: sep :: rest =>
    if d == '1' && (sep == '.' || sep == ')') then rest.dropWhile isPySpace
    else cs
  | _ => cs

/-- `_select_best_option` of `Agent_Brain/AI_mail_drafter.py`: pick the
first candidate block using, in order, `Option <n>` headings, `---`/`***`
separator blocks (first block of stripped length ≥ 30, else the first
block), numbered-list markers, else the whole text. -/
def select_best_option (raw_text : String) : String :=
  if raw_text == "" then raw_text
  else
    let tl := normalizeNewlines raw_text.toList
    match optionStarts tl with
    | start :: more =>
      let endPos := match more with | second :: _ => second | [] => tl.length
      let candidate := pyStripList (sliceList tl start endPos)
      String.mk (pyStripList (stripOptionLabel candidate))
    | [] =>
      let parts := sepParts tl
      if parts.length > 1 then
        match parts.find? (fun part => 30 ≤ (pyStrip part).length) with
        | some part => pyStrip part
        | none => pyStrip (parts.headD "")
      else
        match findNumStart '1' tl with
        | some start =>
          let endPos :=
            match findNumStart '2' tl with
            | some e => e
            | none => tl.length
          let candidate := pyStripList (sliceList tl start endPos)
          String.mk (pyStripList (stripNumLabel candidate))
        | none => String.mk (pyStripList tl)

/-- C3 counterexample.  On the spec's separator fixture the first block of
stripped length ≥ 30 does not exist — `"Bar baz long enough text here"` has
29 characters — so `_select_best_option` falls back to the very first
block `"Foo"`, not the middle block named by the spec. -/
theorem select_option_separator_counterexample :
    select_best_option "Foo\n---\nBar baz long enough text here\n---\nQux" = "Foo" ∧
      ("Foo" : String) ≠ "Bar baz long enough text here" :=
  ⟨rfl, by decide⟩

/-- C3 (amended).  `_select_best_option` follows the precedence
(a) `Option N` markers, (b) separator blocks — first block of stripped
length ≥ 30, else the very first block, (c) numbered-list markers,
(d) whole text; on the literal fixtures: the `Option` input selects
`"Hello"`, the separator input (whose middle block has only 29 characters)
selects `"Foo"`, a separator input with a ≥ 30-character middle block
selects that block, the numbered input selects `"Do the thing"`, and plain
text is returned unchanged. -/
theorem select_best_option_fixtures :
    select_best_option "Option 1: Hello\nOption 2: Goodbye" = "Hello" ∧
    select_best_option "Foo\n---\nBar baz long enough text here\n---\nQux" = "Foo" ∧
    select_best_option "Foo\n---\nBar baz long enough text here!!\n---\nQux" =
      "Bar baz long enough text here!!" ∧
    select_best_option "1. Do the thing\n2. Do another" = "Do the thing" ∧
    select_best_option "Just a plain reply." = "Just a plain reply." :=
  ⟨rfl, rfl, rfl, rfl, rfl⟩

/-! ## A JSON parser (`json.loads`), used by the action extractor and by
`_normalize_action_items`.  Fractional numeric literals and `\u` escapes
are not modelled (no input of this development contains them); on those the
parser reports failure. -/

/-- JSON insignificant whitespace. -/
def isJsonWs (c : Char) : Bool :=
  [' ', '\t', '\n', '\r'].contains c

/-- Skip insignificant whitespace. -/
def skipWs (cs : List Char) : List Char := cs.dropWhile isJsonWs

/-- The two-character JSON string escapes, as a lookup table. -/
def jsonEscapePairs : List (Char × Char) :=
  [('"', '"'), ('\\', '\\'), ('/', '/'), ('n', '\n'),
   ('t', '\t'), ('r', '\r'), ('b', '\x08'), ('f', '\x0c')]

/-- Decode a JSON string escape. -/
def jsonEscape (c : Char) : Option Char :=
  (jsonEscapePairs.find? (fun p => p.1 == c)).map Prod.snd

/-- Parse the body of a JSON string literal (after the opening quote). -/
def parseJsonStr (acc : List Char) : List Char → Option (String × List Char)
  | [] => none
  | '"' :: rest => some (String.mk acc.reverse, rest)
  | '\\' :: e :: rest =>
    match jsonEscape e with
    | some c => parseJsonStr (c :: acc) rest
    | none => none
  | '\\' :: [] => none
  | c :: rest => parseJsonStr (c :: acc) rest

/-- Numeric value of a digit run. -/
def digitsToNat (ds : List Char) : Nat :=
  ds.foldl (fun a c => a * 10 + (c.toNat - 48)) 0

/-- Recognize a literal keyword at the head of the input. -/
def keywordTail (w : String) (cs : List Char) : Option (List Char) :=
  if w.toList.isPrefixOf cs then some (cs.drop w.toList.length) else none

/-- Parse an unsigned JSON integer literal (fractional/exponent forms are
rejected: this model keeps only whole numbers). -/
def parseJsonDigits (cs1 : List Char) : Option (Int × List Char) :=
  let ds := cs1.takeWhile Char.isDigit
  if ds.isEmpty then none
  else
    let rest := cs1.drop ds.length
    let bad := match rest with
      | c :: _ => c == '.' || c == 'e' || c == 'E'
      | [] => false
    if bad then none
    else some ((digitsToNat ds : Int), rest)

/-- Parse a JSON integer literal with its optional sign. -/
def parseJsonNum (cs : List Char) : Option (Val × List Char) :=
  match cs with
  | '-' :: r => (parseJsonDigits r).map (fun p => (.int (-p.1), p.2))
  | _ => (parseJsonDigits cs).map (fun p => (.int p.1, p.2))

mutual

/-- Parse one JSON value. -/
def parseJsonVal : Nat → List Char → Option (Val × List Char)
  | 0, _ => none
  | fuel + 1, cs =>
    match skipWs cs with
    | '{' :: rest => parseJsonObj fuel rest
    | '[' :: rest => parseJsonArr fuel rest
    | '"' :: rest => (parseJsonStr [] rest).map (fun p => (.str p.1, p.2))
    | other =>
      match keywordTail "true" other with
      | some rest => some (.bool true, rest)
      | none =>
        match keywordTail "false" other with
        | some rest => some (.bool false, rest)
        | none =>
          match keywordTail "null" other with
          | some rest => some (.null, rest)
          | none =>
            match other with
            | c :: _ => if c == '-' || c.isDigit then parseJsonNum other else none
            | [] => none

/-- Parse an object after the opening brace. -/
def parseJsonObj : Nat → List Char → Option (Val × List Char)
  | 0, _ => none
  | fuel + 1, cs =>
    match skipWs cs with
    | '}' :: rest => some (.obj [], rest)
    | _ => parseJsonMembers fuel cs []

/-- Parse the members of a non-empty object. -/
def parseJsonMembers : Nat → List Char → List (String × Val) →
    Option (Val × List Char)
  | 0, _, _ => none
  | fuel + 1, cs, acc =>
    match skipWs cs with
    | '"' :: rest =>
      match parseJsonStr [] rest with
      | none => none
      | some (k, r1) =>
        match skipWs r1 with
        | ':' :: r2 =>
          match parseJsonVal fuel r2 with
          | none => none
          | some (v, r3) =>
            match skipWs r3 with
            | ',' :: r4 => parseJsonMembers fuel r4 (acc ++ [(k, v)])
            | '}' :: r4 => some (.obj (acc ++ [(k, v)]), r4)
            | _ => none
        | _ => none
    | _ => none

/-- Parse an array after the opening bracket. -/
def parseJsonArr : Nat → List Char → Option (Val × List Char)
  | 0, _ => none
  | fuel + 1, cs =>
    match skipWs cs with
    | ']' :: rest => some (.list [], rest)
    | _ => parseJsonItems fuel cs []

/-- Parse the items of a non-empty array. -/
def parseJsonItems : Nat → List Char → List Val → Option (Val × List Char)
  | 0, _, _ => none
  | fuel + 1, cs, acc =>
    match parseJsonVal fuel cs with
    | none => none
    | some (v, r1) =>
      match skipWs r1 with
      | ',' :: r2 => parseJsonItems fuel r2 (acc ++ [v])
      | ']' :: r2 => some (.list (acc ++ [v]), r2)
      | _ => none

end

/-- `json.loads`: parse a complete document (anything but whitespace after
the value is an error). -/
def json_loads (s : String) : Option Val :=
  let cs := s.toList
  match parseJsonVal (cs.length + 1) cs with
  | some (v, rest) => if (skipWs rest).isEmpty then some v else none
  | none => none

/-- Index of the last char satisfying a predicate. -/
def lastIdxWhere (p : Char → Bool) (cs : List Char) : Option Nat :=
  ((cs.enum.filter (fun q => p q.2)).map Prod.fst).getLast?

/-- `_parse_json_from_text` of `action_item_extractor.py`: direct parse of
the stripped text, else parse of the substring matched by
`[\{\[][\s\S]*[\}\]]` (first opening bracket through the last closing
bracket), else `ValueError`. -/
def parse_json_from_text (text : String) : Except String Val :=
  let t := pyStrip text
  match json_loads t with
  | some v => .ok v
  | none =>
    let cs := t.toList
    match cs.findIdx? (fun c => c == '{' || c == '['),
        lastIdxWhere (fun c => c == '}' || c == ']') cs with
    | some i, some j =>
      if i < j then
        match json_loads (String.mk (sliceList cs i (j + 1))) with
        | some v => .ok v
        | none => .error "Found JSON-like text but failed to parse"
      else .error "No JSON found in model output"
    | _, _ => .error "No JSON found in model output"

/-! ## `_clean_draft` of `AI_mail_drafter.py` -/

/-- The backquote character. -/
def btick : Char := Char.ofNat 96

/-- Index of the first occurrence of three consecutive backquotes. -/
def findFence : List Char → Option Nat
  | c₁ :: c₂ :: c₃ :: rest =>
    if c₁ == btick && c₂ == btick && c₃ == btick then some 0
    else (findFence (c₂ :: c₃ :: rest)).map (· + 1)
  | _ => none

/-- `re.sub(r"```.*?```", "", text, flags=re.DOTALL)`: each opening fence
pairs with the next fence after it; an unpaired opening stays. -/
def removeFences : Nat → List Char → List Char
  | 0, cs => cs
  | fuel + 1, cs =>
    match findFence cs with
    | none => cs
    | some i =>
      match findFence (cs.drop (i + 3)) with
      | none => cs
      | some j => cs.take i ++ removeFences fuel ((cs.drop (i + 3)).drop (j + 3))

/-- Match `^\s*[-*_]{3,}\s*$` (MULTILINE) at a line start: maximal
whitespace run, at least three rule chars, then trailing whitespace up to
(excluding) the last newline of the trailing run — or to the end of the
string; returns the match length. -/
def tryRuleLine (cs : List Char) : Option Nat :=
  let ws1 := cs.takeWhile isPySpace
  let r2 := cs.drop ws1.length
  let dashes := r2.takeWhile isRuleChar
  if dashes.length < 3 then none
  else
    let r3 := r2.drop dashes.length
    let ws2 := r3.takeWhile isPySpace
    if ws2.length == r3.length then some cs.length
    else
      match lastNewlineIdx ws2 with
      | some j => some (ws1.length + dashes.length + j)
      | none => none

/-- Scan for standalone rule lines, removing each match (`re.sub` with
empty replacement); the `^` anchor of the next position is judged against
the last consumed character. -/
def removeRuleLines : Nat → Bool → List Char → List Char
  | 0, _, cs => cs
  | _, _, [] => []
  | fuel + 1, isLineStart, c :: rest =>
    if isLineStart then
      match tryRuleLine (c :: rest) with
      | some len =>
        let consumed := (c :: rest).take len
        removeRuleLines fuel (consumed.getLast? == some '\n') ((c :: rest).drop len)
      | none => c :: removeRuleLines fuel (c == '\n') rest
    else c :: removeRuleLines fuel (c == '\n') rest

/-- `text.replace("**", "")`. -/
def removeDoubleStar : List Char → List Char
  | '*' :: '*' :: rest => removeDoubleStar rest
  | c :: rest => c :: removeDoubleStar rest
  | [] => []

/-- `re.sub(r"^Subject:.*$", "", text, flags=re.MULTILINE)`: at a line
start, drop a `Subject:` line's content up to (excluding) its newline. -/
def removeSubjectLines : Nat → Bool → List Char → List Char
  | 0, _, cs => cs
  | _, _, [] => []
  | fuel + 1, isLineStart, c :: rest =>
    if isLineStart && ("Subject:".toList.isPrefixOf (c :: rest)) then
      let len := ((c :: rest).takeWhile (fun x => !(x == '\n'))).length
      removeSubjectLines fuel false ((c :: rest).drop len)
    else c :: removeSubjectLines fuel (c == '\n') rest

/-- Indices of newline characters, in descending order. -/
def newlineIdxsDesc (cs : List Char) : List Nat :=
  ((cs.enum.filter (fun p => p.2 == '\n')).map Prod.fst).reverse

/-- First `some` among a list of lazily meaningless options. -/
def firstSome {α : Type} (l : List (Option α)) : Option α :=
  (l.filterMap id).head?

/-- Match `\n\s*\n\s*\n+` at the head, with the greedy/backtracking choice
of the two `\s*` runs (largest viable newline index first). -/
def tryBlankCollapse (cs : List Char) : Option Nat :=
  match cs with
  | '\n' :: r1 =>
    let w1 := r1.takeWhile isPySpace
    firstSome ((newlineIdxsDesc w1).map (fun i =>
      let r2 := r1.drop (i + 1)
      let w2 := r2.takeWhile isPySpace
      firstSome ((newlineIdxsDesc w2).map (fun j =>
        let k := ((r2.drop j).takeWhile (fun c => c == '\n')).length
        some (1 + (i + 1) + j + k)))))
  | _ => none

/-- `re.sub(r"\n\s*\n\s*\n+", "\n\n", text)`. -/
def collapseBlankLines : Nat → List Char → List Char
  | 0, cs => cs
  | _, [] => []
  | fuel + 1, c :: rest =>
    match tryBlankCollapse (c :: rest) with
    | some len => '\n' :: '\n' :: collapseBlankLines fuel ((c :: rest).drop len)
    | none => c :: collapseBlankLines fuel rest

/-- `_clean_draft` of `AI_mail_drafter.py`: strip fenced code blocks,
standalone rule lines, bold markers and `Subject:` lines, trim, collapse
runs of blank lines, trim again. -/
def clean_draft (text : String) : String :=
  let l0 := text.toList
  let l1 := removeFences (l0.length + 1) l0
  let l2 := removeRuleLines (l1.length + 1) true l1
  let l3 := removeDoubleStar l2
  let l4 := removeSubjectLines (l3.length + 1) true l3
  let l5 := pyStripList l4
  let l6 := collapseBlankLines (l5.length + 1) l5
  String.mk (pyStripList l6)

/-! ## Model Gateway, process state and the stage processors

`connection_gateway.call` returns the response text or raises
`ConnectionError`; it is modelled by an oracle indexed by the process-wide
count of gateway calls (and fed the prompt, though no claim depends on the
prompt's content).  The wall clock is a rational number of seconds; every
`time.sleep` advances it and is recorded in a trace. -/

/-- Outcome of one gateway call. -/
inductive GResp where
  | ok (text : String)
  | connErr (msg : String)

/-- The gateway oracle: response to the n-th call with the given prompt. -/
abbrev Oracle := Nat → String → GResp

/-- A Python exception: `ConnectionError` versus everything else
(`ValueError`, `IndexError`, `TypeError`, ...). -/
inductive PErr where
  | conn (msg : String)
  | exc (msg : String)

/-- Message text of an exception (`str(e)`). -/
def PErr.message : PErr → String
  | .conn m => m
  | .exc m => m

/-- The prompt library (`prompt_library.json`); an empty string stands for
a missing prompt of that type. -/
structure PromptLib where
  categorization : String
  action_extraction : String
  auto_reply : String

/-- Environment-configurable constants of `Backend/mail_func.py`, in
milliseconds. -/
structure Config where
  minSecondsBetweenLLMCalls : ℤ
  retryBackoffSeconds : ℤ

/-- Defaults: `MIN_SECONDS_BETWEEN_LLM_CALLS = 0.5` (500 ms),
`LLM_QUOTA_BACKOFF_SECONDS = 60` (60000 ms). -/
def defaultConfig : Config := ⟨500, 60000⟩

/-- The process-wide "last error" record (`{message, timestamp}`). -/
structure LastErr where
  message : String
  timestamp : ℤ
deriving Repr, DecidableEq

/-- Process state threaded through the orchestrator: the on-disk document,
the gateway call counter, the clock, the trace of sleeps, and the module
globals `_last_llm_call`, `_quota_backoff_until`, `_last_error`. -/
structure PState where
  doc : Option Mailbox
  callIdx : Nat
  now : ℤ
  sleeps : List ℤ
  lastLlmCall : ℤ
  backoffUntil : ℤ
  lastError : Option LastErr

/-- `time.sleep(d)`. -/
def sleepSt (d : ℤ) (st : PState) : PState :=
  { st with now := st.now + d, sleeps := st.sleeps ++ [d] }

/-- `set_last_error` (the on-disk error-signal mirror is not modelled
separately: it is written from this record). -/
def set_last_error (msg : String) (st : PState) : PState :=
  { st with lastError := some ⟨msg, st.now⟩ }

/-- `clear_last_error`. -/
def clear_last_error (st : PState) : PState :=
  { st with lastError := none }

/-- `_throttle`. -/
def throttle (cfg : Config) (st : PState) : PState :=
  let elapsed := st.now - st.lastLlmCall
  let st :=
    if elapsed < cfg.minSecondsBetweenLLMCalls then
      sleepSt (cfg.minSecondsBetweenLLMCalls - elapsed) st
    else st
  { st with lastLlmCall := st.now }

/-- `str.lower()` (character-wise; `Char.toLower` reduces structurally,
unlike `String.toLower`). -/
def pyLower (s : String) : String := String.mk (s.toList.map Char.toLower)

/-- Substring test (`k in txt`). -/
def containsSub (hay pat : List Char) : Bool :=
  (List.range (hay.length + 1)).any (fun i => pat.isPrefixOf (hay.drop i))

/-- The quota keywords of `_is_quota_or_token_error`. -/
def quotaKeywords : List String :=
  ["quota", "quota exceeded", "429", "rate limit", "token", "billing",
   "quota_exceeded", "resource_exhausted", "exceeded"]

/-- `_is_quota_or_token_error`: keyword scan over the lowercased message. -/
def is_quota_or_token_error (msg : String) : Bool :=
  quotaKeywords.any (fun k => containsSub (pyLower msg).toList k.toList)

/-- `_set_quota_backoff` (the throttle of the log line is not modelled:
it only suppresses repeated printing). -/
def set_quota_backoff (cfg : Config) (msg : String) (st : PState) : PState :=
  set_last_error msg
    { st with backoffUntil := max st.backoffUntil (st.now + cfg.retryBackoffSeconds) }

/-- `_clear_quota_backoff`. -/
def clear_quota_backoff (st : PState) : PState :=
  clear_last_error { st with backoffUntil := 0 }

/-- `_quota_backoff_active`: backoff time left (ms). -/
def quota_backoff_active (st : PState) : ℤ :=
  max 0 (st.backoffUntil - st.now)

/-- `_read_inbox` (reading succeeds in this model; a missing file reads as
the fresh document). -/
def read_inbox (st : PState) : Mailbox :=
  st.doc.getD ⟨0, []⟩

/-- One gateway call: consult the oracle and bump the call counter. -/
def callGateway (o : Oracle) (prompt : String) (st : PState) : GResp × PState :=
  (o st.callIdx prompt, { st with callIdx := st.callIdx + 1 })

/-- Python `str()` of a value, used only where the code stringifies a
non-string field (repr punctuation approximated; no claim inspects it). -/
def pyStr : Val → String
  | .str s => s
  | .int n => toString n
  | .bool b => if b then "True" else "False"
  | .null => "None"
  | .list _ => "[...]"
  | .obj _ => "{...}"

/-- `str.splitlines()` (on `\n`, `\r`, `\r\n`). -/
def splitlinesGo (cur : List Char) : List Char → List (List Char)
  | [] => if cur.isEmpty then [] else [cur.reverse]
  | '\r' :: '\n' :: rest => cur.reverse :: splitlinesGo [] rest
  | '\n' :: rest => cur.reverse :: splitlinesGo [] rest
  | '\r' :: rest => cur.reverse :: splitlinesGo [] rest
  | c :: rest => splitlinesGo (c :: cur) rest

/-- `str.splitlines()`. -/
def pySplitlines (s : String) : List String :=
  (splitlinesGo [] s.toList).map String.mk

/-- `str.strip(c)` for a single character. -/
def stripCharEnds (c : Char) (cs : List Char) : List Char :=
  ((cs.dropWhile (· == c)).reverse.dropWhile (· == c)).reverse

/-- `CATEGORY_RE = ^[A-Za-z0-9 _\-\&]{1,100}$`. -/
def categoryReOk (s : String) : Bool :=
  1 ≤ s.length && s.length ≤ 100 &&
    s.toList.all (fun c => [' ', '_', '-', '&'].contains c || c.isAlphanum)

/-- `out.strip().splitlines()[0].strip().strip('"').strip("'")`; an empty
response raises `IndexError` at the `[0]` subscript. -/
def sanitizeCategory (out : String) : Except PErr String :=
  match pySplitlines (pyStrip out) with
  | [] => .error (.exc "list index out of range")
  | first :: _ =>
    .ok (String.mk (stripCharEnds '\x27' (stripCharEnds '"' (pyStripList first.toList))))

/-- `mail.get(k, default)` where the value is then concatenated into a
prompt: a non-string value raises `TypeError`. -/
def getStrField (mail : Rec) (k : String) (d : String) : Except PErr String :=
  match recGet? mail k with
  | none => .ok d
  | some (.str s) => .ok s
  | some _ => .error (.exc "can only concatenate str (not other) to str")

/-- Sleep durations of the retry ramp: with `r + 1` attempts remaining out
of 5, the current attempt number is `5 - r` and the backoff after a
connector failure is `1 * (5 - r)` seconds, i.e. `(5 - r) * 1000` ms. -/
def rampSleep (r : Nat) : ℤ := ((5 - r : Nat) : ℤ) * 1000

/-- The shared `while attempts < 5` gateway retry loop of the three stage
processors: call the gateway; on `ConnectionError` sleep `attempt * 1s`
and retry; on success hand the text to the per-stage body, whose outcome
(including its exceptions) is returned without further retries; after five
connector failures raise `ConnectionError` with the exhaustion message
built from the last error. -/
def retryGw {α : Type} (o : Oracle) (prompt : String)
    (body : String → PState → Except PErr α × PState)
    (exhaust : String → String) :
    Nat → String → PState → Except PErr α × PState
  | 0, lastErr, st => (.error (.conn (exhaust lastErr)), st)
  | r + 1, _lastErr, st =>
    match callGateway o prompt st with
    | (.connErr m, st') =>
      retryGw o prompt body exhaust r m (sleepSt (rampSleep r) st')
    | (.ok out, st') => body out st'

/-- The categorizer's combined prompt. -/
def catPrompt (lib : PromptLib) (body : String) : String :=
  lib.categorization ++ "\n\nEMAIL:\n" ++ body ++
    "\n\nReturn a single short category label."

/-- The extractor's combined prompt. -/
def extrPrompt (lib : PromptLib) (body : String) : String :=
  lib.action_extraction ++ "\n\nEMAIL:\n" ++ body ++ "\n\nRespond with JSON."

/-- The drafter's combined prompt, with the appended `INVALID`
instruction. -/
def draftPrompt (lib : PromptLib) (body : String) : String :=
  lib.auto_reply ++ "\n\nORIGINAL EMAIL:\n" ++ body ++
    "\n\nProduce a polite reply." ++
    "\n\nIMPORTANT: If this email is NOT suitable for drafting based on the prompt, respond with exactly the single word:\nINVALID"

/-- Per-attempt body of `smart_categorizer`: sanitize, validate against
`CATEGORY_RE`, persist via `update_mail`. -/
def catBody (mail_id : Int) (out : String) (st : PState) :
    Except PErr String × PState :=
  match sanitizeCategory out with
  | .error e => (.error e, st)
  | .ok cat =>
    if !categoryReOk cat then
      (.error (.exc ("Invalid category format: '" ++ cat ++ "'")), st)
    else
      let r := update_mail (.int mail_id) [("category", .str cat)] st.doc
      (.ok cat, { st with doc := r.doc })

/-- `smart_categorizer` of `Agent_Brain/smart_categorizer.py`. -/
def smart_categorizer (lib : PromptLib) (o : Oracle) (mail : Rec)
    (st : PState) : Except PErr String × PState :=
  match pyIntOpt (recGet? mail "id") with
  | none => (.error (.exc "int() argument is not valid"), st)
  | some mail_id =>
    if lib.categorization == "" then
      (.error (.exc "No categorization prompt found in prompt_library.json"), st)
    else
      match getStrField mail "body" "" with
      | .error e => (.error e, st)
      | .ok body =>
        retryGw o (catPrompt lib body) (catBody mail_id)
          (fun le => "Failed to categorize after 5 attempts. Last error: " ++ le)
          5 "None" st

/-- Per-attempt body of `action_item_extractor`: parse a JSON object or
array out of the text, normalize a single object into a one-element list,
require a `task` key on every element, persist via `update_mail`. -/
def extrBody (mail_id : Int) (out : String) (st : PState) :
    Except PErr (List Val) × PState :=
  match parse_json_from_text out with
  | .error msg => (.error (.exc msg), st)
  | .ok parsed =>
    let items? : Except PErr (List Val) :=
      match parsed with
      | .obj fields => .ok [.obj fields]
      | .list l => .ok l
      | _ => .error (.exc "Parsed JSON is neither object nor list.")
    match items? with
    | .error e => (.error e, st)
    | .ok items =>
      if items.all (fun it =>
          match it with
          | .obj fields => recHas fields "task"
          | _ => false) then
        let r := update_mail (.int mail_id) [("action_items", .list items)] st.doc
        (.ok items, { st with doc := r.doc })
      else (.error (.exc "Invalid action item format"), st)

/-- `action_item_extractor` of `Agent_Brain/action_item_extractor.py`. -/
def action_item_extractor (lib : PromptLib) (o : Oracle) (mail : Rec)
    (st : PState) : Except PErr (List Val) × PState :=
  match pyIntOpt (recGet? mail "id") with
  | none => (.error (.exc "int() argument is not valid"), st)
  | some mail_id =>
    if lib.action_extraction == "" then
      (.error (.exc "No action_extraction prompt found in prompt_library.json"), st)
    else
      match getStrField mail "body" "" with
      | .error e => (.error e, st)
      | .ok body =>
        retryGw o (extrPrompt lib body) (extrBody mail_id)
          (fun le => "Failed after 5 attempts. Last error: " ++ le)
          5 "None" st

/-- `mail_obj.get("draftable") == 0`. -/
def draftableIsZero (mail : Rec) : Bool :=
  match recGet? mail "draftable" with
  | some v => pyEq v (.int 0)
  | none => false

/-- `time.strftime("%Y-%m-%dT%H:%M:%S%z")`, abstracted to the clock value
(no claim inspects the draft's timestamp text). -/
def strftimeModel (now : ℤ) : String := toString now

/-- Best-effort `update_mail(src_id, {"draftable": 0})` (present only when
the mail has an id; update failures are swallowed). -/
def markSourceNonDraftable (mail : Rec) (st : PState) : PState :=
  match recGet? mail "id" with
  | some idv => { st with doc := (update_mail idv [("draftable", .int 0)] st.doc).doc }
  | none => st

/-- Per-attempt body of `AI_mail_drafter`: empty responses raise, the
exact text `INVALID` marks the source non-draftable and produces no draft,
otherwise the first candidate block is selected, cleaned, inserted as a
new `draft` mail with a `draft_for` backlink, and the source is marked
non-draftable. -/
def draftBody (mail : Rec) (sender_override : Option String)
    (out : String) (st : PState) : Except PErr String × PState :=
  let raw_draft := pyStrip out
  if raw_draft == "" then (.error (.exc "Empty draft from model."), st)
  else if raw_draft == "INVALID" then
    (.ok "", markSourceNonDraftable mail st)
  else
    let draft_text := clean_draft (select_best_option raw_draft)
    let subj :=
      match recGet? mail "subject" with
      | none => "(no subject)"
      | some (.str s) => s
      | some v => pyStr v
    let draft_mail : Rec :=
      [("sender", .str (sender_override.getD "ai.drafter@oceanai.local")),
       ("subject", .str ("Draft reply: " ++ subj)),
       ("timestamp", .str (strftimeModel st.now)),
       ("body", .str draft_text),
       ("category", .str "draft"),
       ("action_items", .list []),
       ("draft_for", (recGet? mail "id").getD .null)]
    let ar := add_mail draft_mail st.doc
    match ar.result with
    | .error msg => (.error (.exc msg), st)
    | .ok new_id =>
      let st := { st with doc := ar.doc }
      let st := markSourceNonDraftable mail st
      let st := { st with
        doc := (update_mail (.int new_id) [("category", .str "draft")] st.doc).doc }
      (.ok draft_text, st)

/-- `AI_mail_drafter` of `Agent_Brain/AI_mail_drafter.py`.  The
transient-I/O retry around `add_mail` collapses: in this pure model
`add_mail` cannot raise `PermissionError`/`OSError`, and the draft record
always carries the four required fields, so the first attempt succeeds. -/
def AI_mail_drafter (lib : PromptLib) (o : Oracle) (mail : Rec)
    (sender_override : Option String) (st : PState) :
    Except PErr String × PState :=
  if draftableIsZero mail then (.ok "", st)
  else if lib.auto_reply == "" then
    (.error (.exc "No auto_reply prompt found in prompt_library.json"), st)
  else
    match getStrField mail "body" "" with
    | .error e => (.error e, st)
    | .ok body =>
      retryGw o (draftPrompt lib body) (draftBody mail sender_override)
        (fun le => "Failed to generate draft after 5 attempts. Last error: " ++ le)
        5 "None" st

/-! ## `Backend/mail_func.py`: the orchestrator -/

/-- `"[" ... "]"` or `"{" ... "}"` wrapping test of
`_normalize_action_items`. -/
def jsonWrapped (s : String) : Bool :=
  match s.toList with
  | [] => false
  | c :: rest =>
    (c == '[' && rest.getLast? == some ']') ||
    (c == '{' && rest.getLast? == some '}')

/-- `_normalize_action_items`, fuelled for its recursion through parsed
JSON strings (a parsed candidate is strictly shorter, and in fact at most
one recursive step occurs since the parse of a wrapped string is a list or
object). -/
def normalize_action_items_f : Nat → Option Val → List Val
  | _, none => []
  | 0, _ => []
  | fuel + 1, some raw =>
    if !truthy raw then []
    else
      match raw with
      | .list l =>
        l.map (fun it =>
          match it with
          | .obj fields => .obj fields
          | _ => .obj [("task", .str (pyStr it))])
      | .str s =>
        let s := pyStrip s
        if jsonWrapped s then
          match json_loads s with
          | some parsed => normalize_action_items_f fuel (some parsed)
          | none => [.obj [("task", .str s)]]
        else [.obj [("task", .str s)]]
      | other => [.obj [("task", .str (pyStr other))]]

/-- `_normalize_action_items` with sufficient fuel. -/
def normalize_action_items (raw : Option Val) : List Val :=
  normalize_action_items_f
    (match raw with
     | some (.str s) => s.length + 2
     | _ => 2) raw

/-- `mail.get("action_items") or []`. -/
def currentActionItems (mail : Rec) : Val :=
  match recGet? mail "action_items" with
  | some v => if truthy v then v else .list []
  | none => .list []

/-- `(m.get("category") or "").lower()`: the empty string for a falsy
category, the lowercased string for a string, and `AttributeError` for a
truthy non-string. -/
def lowerCategoryOrEmpty (m : Rec) : Except PErr String :=
  match recGet? m "category" with
  | none => .ok ""
  | some v =>
    if truthy v then
      match v with
      | .str s => .ok (pyLower s)
      | _ => .error (.exc "'object' has no attribute 'lower'")
    else .ok ""

/-- `_draft_exists_for`: scan the fresh snapshot for a record of category
`draft` whose `draft_for`/`in_reply_to`/`source_id` equals the source id
(the raw value, `None` included); malformed records are skipped. -/
def draft_exists_for (mail_id : Option Val) (st : PState) : Bool :=
  (read_inbox st).emails.any (fun m =>
    match lowerCategoryOrEmpty m with
    | .error _ => false
    | .ok cat =>
      cat == "draft" &&
        (pyEqOpt (recGet? m "draft_for") mail_id ||
         pyEqOpt (recGet? m "in_reply_to") mail_id ||
         pyEqOpt (recGet? m "source_id") mail_id))

/-- The per-catch-site handler of `_process_one_mail`:
`if _is_quota_or_token_error(e): _set_quota_backoff(str(e))`. -/
def onStageError (cfg : Config) (e : PErr) (st : PState) : PState :=
  if is_quota_or_token_error e.message then set_quota_backoff cfg e.message st
  else st

/-- `_process_one_mail`.  The second component is the exception escaping
the function, which can only arise from the `cat = (mail.get("category")
or "").lower()` line that sits outside every `try` block; all stage
failures are caught inside (quota-matching ones arm the backoff). -/
def process_one_mail (cfg : Config) (lib : PromptLib) (o : Oracle)
    (mail : Rec) (st : PState) : PState × Option String :=
  if 0 < quota_backoff_active st then (st, none)
  else
    match lowerCategoryOrEmpty mail with
    | .error e => (st, some e.message)
    | .ok cat =>
      if cat == "draft" then
        let st := throttle cfg st
        let r := action_item_extractor lib o mail st
        match r.1 with
        | .ok _ => (r.2, none)
        | .error e => (onStageError cfg e r.2, none)
      else
        -- stage 1: categorize, only if the category is falsy; a
        -- quota-matching failure arms the backoff and ends this mail
        let step1 : PState × Bool :=
          if !truthyOpt (recGet? mail "category") then
            let st := throttle cfg st
            let r := smart_categorizer lib o mail st
            match r.1 with
            | .ok _ => (r.2, false)
            | .error e =>
              if is_quota_or_token_error e.message then
                (set_quota_backoff cfg e.message r.2, true)
              else (r.2, false)
          else (st, false)
        if step1.2 then (step1.1, none)
        else
          let st := sleepSt 200 step1.1
          -- stage 2: extract, only if the normalized items are empty
          let step2 : PState × Bool :=
            if (normalize_action_items (some (currentActionItems mail))).isEmpty then
              let st := throttle cfg st
              let r := action_item_extractor lib o mail st
              match r.1 with
              | .ok _ => (r.2, false)
              | .error e =>
                if is_quota_or_token_error e.message then
                  (set_quota_backoff cfg e.message r.2, true)
                else (r.2, false)
            else (st, false)
          if step2.2 then (step2.1, none)
          else
            let st := sleepSt 200 step2.1
            -- stage 3: draft, when not itself a draft and no draft exists
            match lowerCategoryOrEmpty mail with
            | .error e => (onStageError cfg e st, none)
            | .ok current_cat =>
              if current_cat == "draft" then (st, none)
              else if draft_exists_for (recGet? mail "id") st then (st, none)
              else
                let st := throttle cfg st
                let r := AI_mail_drafter lib o mail none st
                match r.1 with
                | .ok _ => (clear_quota_backoff r.2, none)
                | .error e => (onStageError cfg e r.2, none)

/-- The fresh-record lookup of `process_mails_sequentially`:
`int(m.get("id", -1)) == int(mail.get("id"))` with the raw-equality
fallback when a cast raises. -/
def findFresh (current : List Rec) (mail : Rec) : Option Rec :=
  current.find? (fun m =>
    match pyInt (recGetD m "id" (.int (-1))), pyIntOpt (recGet? mail "id") with
    | some a, some b => a == b
    | _, _ => pyEqOpt (recGet? m "id") (recGet? mail "id"))

/-- The body of the `while idx < len(emails)` loop of
`process_mails_sequentially`, fuelled (the Python loop's iteration count
is finite in wall-clock time; the fuel bounds the modelled iterations).
While a quota backoff is active the loop sleeps in slices of at most 2s,
re-reads the inbox and restarts from index 0. -/
def passGo (cfg : Config) (lib : PromptLib) (o : Oracle) (delay : ℤ) :
    Nat → List Rec → Nat → PState → PState
  | 0, _, _, st => st
  | fuel + 1, snapshot, idx, st =>
    if h : idx < snapshot.length then
      let left := quota_backoff_active st
      if 0 < left then
        let st := sleepSt (min left 2000) st
        passGo cfg lib o delay fuel (read_inbox st).emails 0 st
      else
        let mail := snapshot.get ⟨idx, h⟩
        match findFresh (read_inbox st).emails mail with
        | none => passGo cfg lib o delay fuel snapshot (idx + 1) st
        | some fresh =>
          let r := process_one_mail cfg lib o fresh st
          let st :=
            match r.2 with
            | some _ => r.1
            | none => sleepSt delay r.1
          passGo cfg lib o delay fuel snapshot (idx + 1) st
    else st

/-- `process_mails_sequentially(delay_between=0.2)`. -/
def process_mails_sequentially (cfg : Config) (lib : PromptLib) (o : Oracle)
    (fuel : Nat) (delay : ℤ) (st : PState) : PState :=
  let emails := (read_inbox st).emails
  if emails.isEmpty then st
  else passGo cfg lib o delay fuel emails 0 st

/-! ## Retry-loop lemmas -/

@[simp] theorem sleepSt_callIdx (d : ℤ) (st : PState) :
    (sleepSt d st).callIdx = st.callIdx := rfl

@[simp] theorem sleepSt_doc (d : ℤ) (st : PState) :
    (sleepSt d st).doc = st.doc := rfl

@[simp] theorem sleepSt_sleeps (d : ℤ) (st : PState) :
    (sleepSt d st).sleeps = st.sleeps ++ [d] := rfl

@[simp] theorem sleepSt_backoffUntil (d : ℤ) (st : PState) :
    (sleepSt d st).backoffUntil = st.backoffUntil := rfl

@[simp] theorem sleepSt_now (d : ℤ) (st : PState) :
    (sleepSt d st).now = st.now + d := rfl

/-- The sleep durations of `n` trailing failed attempts (out of 5):
`rampList 5 = [1000, 2000, 3000, 4000, 5000]` (milliseconds). -/
def rampList : Nat → List ℤ
  | 0 => []
  | r + 1 => rampSleep r :: rampList r

theorem retryGw_callIdx_le {α : Type} (o : Oracle) (p : String)
    (body : String → PState → Except PErr α × PState) (ex : String → String)
    (hbody : ∀ r st', (body r st').2.callIdx = st'.callIdx) :
    ∀ (n : Nat) (le : String) (st : PState),
      (retryGw o p body ex n le st).2.callIdx ≤ st.callIdx + n := by
  intro n
  induction n with
  | zero => intro le st; simp [retryGw]
  | succ r ih =>
    intro le st
    cases hc : o st.callIdx p with
    | connErr m =>
      have hr : retryGw o p body ex (r + 1) le st =
          retryGw o p body ex r m
            (sleepSt (rampSleep r) { st with callIdx := st.callIdx + 1 }) := by
        simp [retryGw, callGateway, hc]
      rw [hr]
      have h := ih m (sleepSt (rampSleep r) { st with callIdx := st.callIdx + 1 })
      simp only [sleepSt_callIdx] at h
      omega
    | ok out =>
      have hr : retryGw o p body ex (r + 1) le st =
          body out { st with callIdx := st.callIdx + 1 } := by
        simp [retryGw, callGateway, hc]
      rw [hr, hbody]
      show st.callIdx + 1 ≤ st.callIdx + (r + 1)
      omega

theorem retryGw_all_conn {α : Type} (o : Oracle) (p : String)
    (body : String → PState → Except PErr α × PState) (ex : String → String)
    (msgs : Nat → String) :
    ∀ (n : Nat) (le : String) (st : PState),
      (∀ i, i < n → o (st.callIdx + i) p = .connErr (msgs (st.callIdx + i))) →
      (retryGw o p body ex n le st).1 =
        .error (.conn (ex (match n with
          | 0 => le
          | m + 1 => msgs (st.callIdx + m)))) ∧
      (retryGw o p body ex n le st).2.callIdx = st.callIdx + n ∧
      (retryGw o p body ex n le st).2.sleeps = st.sleeps ++ rampList n ∧
      (retryGw o p body ex n le st).2.doc = st.doc := by
  intro n
  induction n with
  | zero => intro le st _; simp [retryGw, rampList]
  | succ r ih =>
    intro le st hconn
    have h0 : o st.callIdx p = .connErr (msgs st.callIdx) := by
      have := hconn 0 (by omega)
      simpa using this
    simp only [retryGw, callGateway, h0]
    have hshift : ∀ i, i < r →
        o ((sleepSt (rampSleep r) { st with callIdx := st.callIdx + 1 }).callIdx + i) p
          = .connErr (msgs ((sleepSt (rampSleep r) { st with callIdx := st.callIdx + 1 }).callIdx + i)) := by
      intro i hi
      have := hconn (i + 1) (by omega)
      simpa [Nat.add_assoc, Nat.add_comm 1 i] using this
    obtain ⟨h1, h2, h3, h4⟩ :=
      ih (msgs st.callIdx) (sleepSt (rampSleep r) { st with callIdx := st.callIdx + 1 }) hshift
    refine ⟨?_, ?_, ?_, ?_⟩
    · rw [h1]
      cases r with
      | zero => simp
      | succ m => simp [Nat.add_assoc, Nat.add_comm 1 m]
    · rw [h2]; simp [sleepSt_callIdx]; omega
    · rw [h3]
      simp only [sleepSt_sleeps]
      show st.sleeps ++ [rampSleep r] ++ rampList r = st.sleeps ++ rampList (r + 1)
      rw [List.append_assoc]
      rfl
    · rw [h4]; rfl

theorem retryGw_first_ok {α : Type} (o : Oracle) (p : String)
    (body : String → PState → Except PErr α × PState) (ex : String → String)
    (r : Nat) (le : String) (st : PState) (out : String)
    (h : o st.callIdx p = .ok out) :
    retryGw o p body ex (r + 1) le st =
      body out { st with callIdx := st.callIdx + 1 } := by
  simp [retryGw, callGateway, h]

theorem rampList_five : rampList 5 = [1000, 2000, 3000, 4000, 5000] := by
  norm_num [rampList, rampSleep]

theorem catBody_frame (n : Int) (out : String) (st : PState) :
    (catBody n out st).2.callIdx = st.callIdx ∧
      (catBody n out st).2.sleeps = st.sleeps := by
  unfold catBody
  split
  · exact ⟨rfl, rfl⟩
  · split
    · exact ⟨rfl, rfl⟩
    · exact ⟨rfl, rfl⟩

theorem extrBody_frame (n : Int) (out : String) (st : PState) :
    (extrBody n out st).2.callIdx = st.callIdx ∧
      (extrBody n out st).2.sleeps = st.sleeps := by
  unfold extrBody
  rcases hp : parse_json_from_text out with msg | parsed
  · exact ⟨rfl, rfl⟩
  · cases parsed <;> dsimp only <;>
      first
        | exact ⟨rfl, rfl⟩
        | (split <;> exact ⟨rfl, rfl⟩)

theorem markSource_frame (mail : Rec) (st : PState) :
    (markSourceNonDraftable mail st).callIdx = st.callIdx ∧
      (markSourceNonDraftable mail st).sleeps = st.sleeps := by
  unfold markSourceNonDraftable
  split
  · exact ⟨rfl, rfl⟩
  · exact ⟨rfl, rfl⟩

theorem draftBody_frame (mail : Rec) (so : Option String) (out : String)
    (st : PState) :
    (draftBody mail so out st).2.callIdx = st.callIdx ∧
      (draftBody mail so out st).2.sleeps = st.sleeps := by
  unfold draftBody
  dsimp only
  split
  · exact ⟨rfl, rfl⟩
  · split
    · exact markSource_frame mail st
    · split <;>
        first
          | exact ⟨rfl, rfl⟩
          | exact ⟨(markSource_frame mail _).1, (markSource_frame mail _).2⟩

theorem smart_categorizer_calls_le (lib : PromptLib) (o : Oracle)
    (mail : Rec) (st : PState) :
    (smart_categorizer lib o mail st).2.callIdx ≤ st.callIdx + 5 := by
  unfold smart_categorizer
  split
  · exact Nat.le_add_right _ _
  · split
    · exact Nat.le_add_right _ _
    · split
      · exact Nat.le_add_right _ _
      · exact retryGw_callIdx_le o _ _ _
          (fun r st' => (catBody_frame _ r st').1) 5 "None" st

theorem action_item_extractor_calls_le (lib : PromptLib) (o : Oracle)
    (mail : Rec) (st : PState) :
    (action_item_extractor lib o mail st).2.callIdx ≤ st.callIdx + 5 := by
  unfold action_item_extractor
  split
  · exact Nat.le_add_right _ _
  · split
    · exact Nat.le_add_right _ _
    · split
      · exact Nat.le_add_right _ _
      · exact retryGw_callIdx_le o _ _ _
          (fun r st' => (extrBody_frame _ r st').1) 5 "None" st

theorem AI_mail_drafter_calls_le (lib : PromptLib) (o : Oracle) (mail : Rec)
    (so : Option String) (st : PState) :
    (AI_mail_drafter lib o mail so st).2.callIdx ≤ st.callIdx + 5 := by
  unfold AI_mail_drafter
  split
  · exact Nat.le_add_right _ _
  · split
    · exact Nat.le_add_right _ _
    · split
      · exact Nat.le_add_right _ _
      · exact retryGw_callIdx_le o _ _ _
          (fun r st' => (draftBody_frame _ _ r st').1) 5 "None" st

theorem smart_categorizer_to_retry (lib : PromptLib) (o : Oracle)
    (mail : Rec) (st : PState) (n : Int) (b : String)
    (hid : pyIntOpt (recGet? mail "id") = some n)
    (hp : lib.categorization ≠ "")
    (hb : recGet? mail "body" = some (.str b)) :
    smart_categorizer lib o mail st =
      retryGw o (catPrompt lib b) (catBody n)
        (fun le => "Failed to categorize after 5 attempts. Last error: " ++ le)
        5 "None" st := by
  unfold smart_categorizer
  rw [hid]
  simp [beq_eq_false_iff_ne.mpr hp, getStrField, hb]

theorem action_item_extractor_to_retry (lib : PromptLib) (o : Oracle)
    (mail : Rec) (st : PState) (n : Int) (b : String)
    (hid : pyIntOpt (recGet? mail "id") = some n)
    (hp : lib.action_extraction ≠ "")
    (hb : recGet? mail "body" = some (.str b)) :
    action_item_extractor lib o mail st =
      retryGw o (extrPrompt lib b) (extrBody n)
        (fun le => "Failed after 5 attempts. Last error: " ++ le)
        5 "None" st := by
  unfold action_item_extractor
  rw [hid]
  simp [beq_eq_false_iff_ne.mpr hp, getStrField, hb]

theorem AI_mail_drafter_to_retry (lib : PromptLib) (o : Oracle) (mail : Rec)
    (so : Option String) (st : PState) (b : String)
    (hd : draftableIsZero mail = false)
    (hp : lib.auto_reply ≠ "")
    (hb : recGet? mail "body" = some (.str b)) :
    AI_mail_drafter lib o mail so st =
      retryGw o (draftPrompt lib b) (draftBody mail so)
        (fun le => "Failed to generate draft after 5 attempts. Last error: " ++ le)
        5 "None" st := by
  unfold AI_mail_drafter
  simp [hd, beq_eq_false_iff_ne.mpr hp, getStrField, hb]

/-- C6.  Each of the three stage processors makes at most 5 gateway calls
per invocation; when every attempt fails with `ConnectionError` the
processor makes exactly 5 calls, sleeps the linear ramp `1s, 2s, 3s, 4s,
5s`, and raises a `ConnectionError` carrying the last gateway error; a
successful gateway response is handed to the per-stage parse/validate body
whose outcome — including its exceptions — is returned as-is (no retry);
and the bodies themselves never call the gateway nor sleep, so any
non-gateway exception propagates after exactly the one call that produced
the response. -/
theorem stage_retry_policy :
    ((∀ lib o mail st, (smart_categorizer lib o mail st).2.callIdx ≤ st.callIdx + 5) ∧
     (∀ lib o mail st, (action_item_extractor lib o mail st).2.callIdx ≤ st.callIdx + 5) ∧
     (∀ lib o mail so st, (AI_mail_drafter lib o mail so st).2.callIdx ≤ st.callIdx + 5)) ∧
    ((∀ lib o mail st (n : Int) b (msgs : Nat → String),
        pyIntOpt (recGet? mail "id") = some n →
        lib.categorization ≠ "" →
        recGet? mail "body" = some (.str b) →
        (∀ i, i < 5 → o (st.callIdx + i) (catPrompt lib b) =
          .connErr (msgs (st.callIdx + i))) →
        (smart_categorizer lib o mail st).1 =
          .error (.conn ("Failed to categorize after 5 attempts. Last error: "
            ++ msgs (st.callIdx + 4))) ∧
        (smart_categorizer lib o mail st).2.callIdx = st.callIdx + 5 ∧
        (smart_categorizer lib o mail st).2.sleeps = st.sleeps ++ [1000, 2000, 3000, 4000, 5000]) ∧
     (∀ lib o mail st (n : Int) b (msgs : Nat → String),
        pyIntOpt (recGet? mail "id") = some n →
        lib.action_extraction ≠ "" →
        recGet? mail "body" = some (.str b) →
        (∀ i, i < 5 → o (st.callIdx + i) (extrPrompt lib b) =
          .connErr (msgs (st.callIdx + i))) →
        (action_item_extractor lib o mail st).1 =
          .error (.conn ("Failed after 5 attempts. Last error: "
            ++ msgs (st.callIdx + 4))) ∧
        (action_item_extractor lib o mail st).2.callIdx = st.callIdx + 5 ∧
        (action_item_extractor lib o mail st).2.sleeps = st.sleeps ++ [1000, 2000, 3000, 4000, 5000]) ∧
     (∀ lib o mail so st b (msgs : Nat → String),
        draftableIsZero mail = false →
        lib.auto_reply ≠ "" →
        recGet? mail "body" = some (.str b) →
        (∀ i, i < 5 → o (st.callIdx + i) (draftPrompt lib b) =
          .connErr (msgs (st.callIdx + i))) →
        (AI_mail_drafter lib o mail so st).1 =
          .error (.conn ("Failed to generate draft after 5 attempts. Last error: "
            ++ msgs (st.callIdx + 4))) ∧
        (AI_mail_drafter lib o mail so st).2.callIdx = st.callIdx + 5 ∧
        (AI_mail_drafter lib o mail so st).2.sleeps = st.sleeps ++ [1000, 2000, 3000, 4000, 5000])) ∧
    ((∀ lib o mail st (n : Int) b out,
        pyIntOpt (recGet? mail "id") = some n →
        lib.categorization ≠ "" →
        recGet? mail "body" = some (.str b) →
        o st.callIdx (catPrompt lib b) = .ok out →
        smart_categorizer lib o mail st =
          catBody n out { st with callIdx := st.callIdx + 1 }) ∧
     (∀ lib o mail st (n : Int) b out,
        pyIntOpt (recGet? mail "id") = some n →
        lib.action_extraction ≠ "" →
        recGet? mail "body" = some (.str b) →
        o st.callIdx (extrPrompt lib b) = .ok out →
        action_item_extractor lib o mail st =
          extrBody n out { st with callIdx := st.callIdx + 1 }) ∧
     (∀ lib o mail so st b out,
        draftableIsZero mail = false →
        lib.auto_reply ≠ "" →
        recGet? mail "body" = some (.str b) →
        o st.callIdx (draftPrompt lib b) = .ok out →
        AI_mail_drafter lib o mail so st =
          draftBody mail so out { st with callIdx := st.callIdx + 1 })) ∧
    ((∀ (n : Int) out st, (catBody n out st).2.callIdx = st.callIdx ∧
        (catBody n out st).2.sleeps = st.sleeps) ∧
     (∀ (n : Int) out st, (extrBody n out st).2.callIdx = st.callIdx ∧
        (extrBody n out st).2.sleeps = st.sleeps) ∧
     (∀ mail so out st, (draftBody mail so out st).2.callIdx = st.callIdx ∧
        (draftBody mail so out st).2.sleeps = st.sleeps)) := by
  refine ⟨⟨smart_categorizer_calls_le, action_item_extractor_calls_le,
      AI_mail_drafter_calls_le⟩, ⟨?_, ?_, ?_⟩, ⟨?_, ?_, ?_⟩,
      ⟨catBody_frame, extrBody_frame, draftBody_frame⟩⟩
  · intro lib o mail st n b msgs hid hp hb hconn
    rw [smart_categorizer_to_retry lib o mail st n b hid hp hb]
    obtain ⟨h1, h2, h3, _⟩ := retryGw_all_conn o (catPrompt lib b) (catBody n)
      (fun le => "Failed to categorize after 5 attempts. Last error: " ++ le)
      msgs 5 "None" st hconn
    exact ⟨h1, h2, by rw [h3, rampList_five]⟩
  · intro lib o mail st n b msgs hid hp hb hconn
    rw [action_item_extractor_to_retry lib o mail st n b hid hp hb]
    obtain ⟨h1, h2, h3, _⟩ := retryGw_all_conn o (extrPrompt lib b) (extrBody n)
      (fun le => "Failed after 5 attempts. Last error: " ++ le)
      msgs 5 "None" st hconn
    exact ⟨h1, h2, by rw [h3, rampList_five]⟩
  · intro lib o mail so st b msgs hd hp hb hconn
    rw [AI_mail_drafter_to_retry lib o mail so st b hd hp hb]
    obtain ⟨h1, h2, h3, _⟩ := retryGw_all_conn o (draftPrompt lib b)
      (draftBody mail so)
      (fun le => "Failed to generate draft after 5 attempts. Last error: " ++ le)
      msgs 5 "None" st hconn
    exact ⟨h1, h2, by rw [h3, rampList_five]⟩
  · intro lib o mail st n b out hid hp hb hok
    rw [smart_categorizer_to_retry lib o mail st n b hid hp hb]
    exact retryGw_first_ok o _ _ _ 4 "None" st out hok
  · intro lib o mail st n b out hid hp hb hok
    rw [action_item_extractor_to_retry lib o mail st n b hid hp hb]
    exact retryGw_first_ok o _ _ _ 4 "None" st out hok
  · intro lib o mail so st b out hd hp hb hok
    rw [AI_mail_drafter_to_retry lib o mail so st b hd hp hb]
    exact retryGw_first_ok o _ _ _ 4 "None" st out hok

/-- Concrete ingredients for the retry witnesses. -/
def libW : PromptLib :=
  ⟨"Categorize this mail.", "Extract action items.", "Draft a reply."⟩

/-- An oracle whose every call fails with the same connector error. -/
def constConnOracle : Oracle := fun _ _ => .connErr "boom"

/-- A concrete well-formed mail record. -/
def mailW : Rec :=
  [("id", .int 1), ("sender", .str "a@b"), ("subject", .str "s"),
   ("timestamp", .str "t"), ("body", .str "hello"),
   ("category", .str ""), ("action_items", .list []), ("draftable", .str "")]

/-- A fresh process state over a one-mail inbox. -/
def initSt : PState := ⟨some ⟨1, [mailW]⟩, 0, 0, [], 0, 0, none⟩

/-- Witness for C6: five connector failures of the categorizer at concrete
inputs exhaust the retry budget with the linear ramp. -/
theorem stage_retry_policy_witness :
    (smart_categorizer libW constConnOracle mailW initSt).1 =
      .error (.conn ("Failed to categorize after 5 attempts. Last error: "
        ++ "boom")) ∧
    (smart_categorizer libW constConnOracle mailW initSt).2.callIdx =
      initSt.callIdx + 5 ∧
    (smart_categorizer libW constConnOracle mailW initSt).2.sleeps =
      initSt.sleeps ++ [1000, 2000, 3000, 4000, 5000] :=
  stage_retry_policy.2.1.1 libW constConnOracle mailW initSt 1 "hello"
    (fun _ => "boom") rfl (by decide) rfl (fun _ _ => rfl)

/-! ## C7: drafter short-circuits -/

theorem updateEmails_length (i : Val) (u : Rec) (l : List Rec) :
    (updateEmails i u l).2.length = l.length := by
  induction l with
  | nil => rfl
  | cons e rest ih =>
    by_cases h : idMatches e i
    · simp [updateEmails, h]
    · simp [updateEmails, h, ih]

theorem update_mail_doc_length (i : Val) (u : Rec) (doc : Option Mailbox) :
    ((update_mail i u doc).doc).map (fun mb => mb.emails.length) =
      doc.map (fun mb => mb.emails.length) := by
  cases doc with
  | none => rfl
  | some data =>
    unfold update_mail
    by_cases h : (updateEmails i u data.emails).1
    · simp [h, updateEmails_length]
    · simp [h]

theorem markSource_doc_length (mail : Rec) (st : PState) :
    ((markSourceNonDraftable mail st).doc).map (fun mb => mb.emails.length) =
      st.doc.map (fun mb => mb.emails.length) := by
  unfold markSourceNonDraftable
  split
  · exact update_mail_doc_length _ _ _
  · rfl

theorem markSource_doc_eq (mail : Rec) (st : PState) (idv : Val)
    (h : recGet? mail "id" = some idv) :
    (markSourceNonDraftable mail st).doc =
      (update_mail idv [("draftable", .int 0)] st.doc).doc := by
  unfold markSourceNonDraftable
  rw [h]

theorem applyUpdates_single (e : Rec) (k : String) (v : Val) (hk : k ≠ "id") :
    applyUpdates e [(k, v)] = recSet e k v := by
  simp [applyUpdates, hk]

/-- C7.  `AI_mail_drafter` returns at once, with no gateway call and no
state change at all, when the source's `draftable` equals `0`; and when
the gateway answers exactly `"INVALID"` it returns the empty draft, adds
no record (the email count is untouched), and best-effort sets the source
mail's `draftable` to `0` (exactly an `update_mail` of that one field,
which rewrites the first record matching the source id and is silently a
no-op when no record matches). -/
theorem drafter_short_circuits :
    (∀ lib o mail so st, draftableIsZero mail = true →
        AI_mail_drafter lib o mail so st = (.ok "", st)) ∧
    (∀ lib o mail so st b,
        draftableIsZero mail = false →
        lib.auto_reply ≠ "" →
        recGet? mail "body" = some (.str b) →
        o st.callIdx (draftPrompt lib b) = .ok "INVALID" →
        AI_mail_drafter lib o mail so st =
          (.ok "", markSourceNonDraftable mail { st with callIdx := st.callIdx + 1 }) ∧
        ((markSourceNonDraftable mail { st with callIdx := st.callIdx + 1 }).doc).map
            (fun mb => mb.emails.length) =
          st.doc.map (fun mb => mb.emails.length) ∧
        (∀ idv, recGet? mail "id" = some idv →
          (markSourceNonDraftable mail { st with callIdx := st.callIdx + 1 }).doc =
            (update_mail idv [("draftable", .int 0)]
              st.doc).doc) ∧
        (∀ idv data pre e post,
          recGet? mail "id" = some idv → st.doc = some data →
          data.emails = pre ++ e :: post →
          (∀ e' ∈ pre, idMatches e' idv = false) → idMatches e idv = true →
          (markSourceNonDraftable mail { st with callIdx := st.callIdx + 1 }).doc =
            some ⟨data.counter, pre ++ recSet e "draftable" (.int 0) :: post⟩ ∧
          recGet? (recSet e "draftable" (.int 0)) "draftable" = some (.int 0))) := by
  constructor
  · intro lib o mail so st h
    unfold AI_mail_drafter
    simp [h]
  · intro lib o mail so st b hd hp hb hok
    have hmain : AI_mail_drafter lib o mail so st =
        (.ok "", markSourceNonDraftable mail { st with callIdx := st.callIdx + 1 }) := by
      rw [AI_mail_drafter_to_retry lib o mail so st b hd hp hb,
        retryGw_first_ok o _ _ _ 4 "None" st "INVALID" hok]
      rfl
    refine ⟨hmain, markSource_doc_length _ _, fun idv hid => markSource_doc_eq _ _ idv hid, ?_⟩
    intro idv data pre e post hid hdoc hsplit hpre hmatch
    constructor
    · rw [markSource_doc_eq _ _ idv hid, hdoc]
      unfold update_mail
      dsimp only
      rw [hsplit, updateEmails_found idv _ pre e post hpre hmatch]
      simp [applyUpdates_single e "draftable" (.int 0) (by decide)]
    · rw [recGet?_recSet_self]

/-- A mail explicitly excluded from drafting. -/
def mailD0 : Rec := [("id", .int 1), ("subject", .str "s"), ("draftable", .int 0)]

/-- An oracle answering `INVALID` to every prompt. -/
def invalidOracle : Oracle := fun _ _ => .ok "INVALID"

/-- Witness for C7 at concrete inputs: the `draftable == 0` short-circuit
and the `INVALID` path over a one-mail inbox. -/
theorem drafter_short_circuits_witness :
    AI_mail_drafter libW invalidOracle mailD0 none initSt = (.ok "", initSt) ∧
    AI_mail_drafter libW invalidOracle mailW none initSt =
      (.ok "", markSourceNonDraftable mailW { initSt with callIdx := initSt.callIdx + 1 }) :=
  ⟨drafter_short_circuits.1 libW invalidOracle mailD0 none initSt rfl,
   (drafter_short_circuits.2 libW invalidOracle mailW none initSt "hello"
      rfl (by decide) rfl rfl).1⟩

/-! ## C4: the quota backoff state machine -/

/-- A mail ready for drafting (category assigned, action items extracted,
drafting not yet decided). -/
def mailR : Rec :=
  [("id", .int 1), ("sender", .str "a@b"), ("subject", .str "s"),
   ("timestamp", .str "t"), ("body", .str "hello"),
   ("category", .str "work"),
   ("action_items", .list [.obj [("task", .str "x")]]),
   ("draftable", .str "")]

/-- A state with an expired backoff deadline and a stale last-error. -/
def stR : PState := ⟨some ⟨1, [mailR]⟩, 0, 100, [], 0, 50, some ⟨"old", 1⟩⟩

/-- An oracle whose every call fails with a quota-class message. -/
def quotaOracle : Oracle := fun _ _ => .connErr "Quota exceeded (429)."

/-- An oracle that produces a plain one-line draft. -/
def politeOracle : Oracle := fun _ _ => .ok "Hi there."

/-- C4.  With the default 60s backoff: a stage failure whose message
matches a quota/rate-limit/billing/token keyword moves the state to
`Backoff` with a deadline of at least `now + 60` and records the
process-wide last error (message and timestamp); `_clear_quota_backoff`
(run on drafter success) restores `Normal` — zero deadline, no remaining
backoff, cleared last error; a failure that matches no keyword leaves the
state exactly as it was.  The last two conjuncts show the wiring inside
`_process_one_mail` on concrete runs: five quota-class gateway failures of
the categorizer arm the backoff and set the last error, and a successful
draft creation clears both. -/
theorem quota_backoff_state_machine :
    (∀ (st : PState) (e : PErr), is_quota_or_token_error e.message = true →
        st.now + 60000 ≤ (onStageError defaultConfig e st).backoffUntil ∧
        (onStageError defaultConfig e st).lastError = some ⟨e.message, st.now⟩) ∧
    (∀ st : PState,
        (clear_quota_backoff st).backoffUntil = 0 ∧
        (clear_quota_backoff st).lastError = none ∧
        (0 ≤ st.now → quota_backoff_active (clear_quota_backoff st) = 0)) ∧
    (∀ (st : PState) (e : PErr), is_quota_or_token_error e.message = false →
        onStageError defaultConfig e st = st) ∧
    (initSt.now + 60000 ≤
        (process_one_mail defaultConfig libW quotaOracle mailW initSt).1.backoffUntil ∧
      (process_one_mail defaultConfig libW quotaOracle mailW initSt).1.lastError.isSome
        = true) ∧
    ((process_one_mail defaultConfig libW politeOracle mailR stR).1.backoffUntil = 0 ∧
      (process_one_mail defaultConfig libW politeOracle mailR stR).1.lastError = none) := by
  refine ⟨?_, ?_, ?_, by decide, by decide⟩
  · intro st e hq
    unfold onStageError
    rw [hq]
    simp only [if_true]
    constructor
    · show st.now + 60000 ≤ max st.backoffUntil (st.now + defaultConfig.retryBackoffSeconds)
      exact le_max_right _ _
    · rfl
  · intro st
    refine ⟨rfl, rfl, fun hn => ?_⟩
    show max 0 ((0 : ℤ) - st.now) = 0
    omega
  · intro st e hq
    unfold onStageError
    rw [hq]
    rfl

/-- Witness for C4 at a concrete quota error and a concrete non-quota
error. -/
theorem quota_backoff_state_machine_witness :
    (stR.now + 60000 ≤
        (onStageError defaultConfig (.conn "Quota exceeded (429).") stR).backoffUntil ∧
      (onStageError defaultConfig (.conn "Quota exceeded (429).") stR).lastError =
        some ⟨"Quota exceeded (429).", stR.now⟩) ∧
    onStageError defaultConfig (.exc "No JSON found in model output") stR = stR :=
  ⟨quota_backoff_state_machine.1 stR (.conn "Quota exceeded (429).") (by decide),
   quota_backoff_state_machine.2.2.1 stR (.exc "No JSON found in model output")
     (by decide)⟩

/-! ## C2: reprocessing an already-processed mailbox -/

theorem AI_mail_drafter_zero (lib : PromptLib) (o : Oracle) (mail : Rec)
    (so : Option String) (st : PState) (h : draftableIsZero mail = true) :
    AI_mail_drafter lib o mail so st = (.ok "", st) := by
  unfold AI_mail_drafter
  simp [h]

/-- A fully processed mail as the orchestrator's guards see it: a
non-empty string category whose lowercasing is not `draft`, action items
that normalize to a non-empty list, and `draftable == 0`. -/
def mailReady (r : Rec) : Bool :=
  (match recGet? r "category" with
   | some (.str s) => !(s == "") && !(pyLower s == "draft")
   | _ => false) &&
  !(normalize_action_items (some (currentActionItems r))).isEmpty &&
  draftableIsZero r

theorem quota_backoff_active_eq_zero (st : PState) (hb : st.backoffUntil ≤ st.now) :
    quota_backoff_active st = 0 := by
  unfold quota_backoff_active
  omega

theorem throttle_frame (cfg : Config) (st : PState) :
    (throttle cfg st).callIdx = st.callIdx ∧ (throttle cfg st).doc = st.doc ∧
    (throttle cfg st).backoffUntil = st.backoffUntil ∧
    st.now ≤ (throttle cfg st).now := by
  unfold throttle
  dsimp only
  split
  · refine ⟨rfl, rfl, rfl, ?_⟩
    show st.now ≤ st.now + (cfg.minSecondsBetweenLLMCalls - (st.now - st.lastLlmCall))
    have h : st.now - st.lastLlmCall < cfg.minSecondsBetweenLLMCalls := by
      assumption
    omega
  · exact ⟨rfl, rfl, rfl, le_refl _⟩

theorem process_one_mail_ready (cfg : Config) (lib : PromptLib) (o : Oracle)
    (m : Rec) (st : PState) (hm : mailReady m = true)
    (hb : st.backoffUntil ≤ st.now) (hn : 0 ≤ st.now) :
    (process_one_mail cfg lib o m st).2 = none ∧
    (process_one_mail cfg lib o m st).1.callIdx = st.callIdx ∧
    (process_one_mail cfg lib o m st).1.doc = st.doc ∧
    (process_one_mail cfg lib o m st).1.backoffUntil ≤
      (process_one_mail cfg lib o m st).1.now ∧
    st.now ≤ (process_one_mail cfg lib o m st).1.now := by
  unfold mailReady at hm
  obtain ⟨s, hcat, hne, hnd⟩ :
      ∃ s, recGet? m "category" = some (.str s) ∧ (s == "") = false ∧
        (pyLower s == "draft") = false := by
    rcases h1 : recGet? m "category" with _ | v
    · rw [h1] at hm; simp at hm
    · cases v <;> rw [h1] at hm <;> simp at hm
      case str s => exact ⟨s, rfl, by simp [hm.1.1.1], by simp [hm.1.1.2]⟩
  have hnorm : (normalize_action_items (some (currentActionItems m))).isEmpty
      = false := by
    rw [hcat] at hm
    simp at hm
    simp [hm.1.2]
  have hdz : draftableIsZero m = true := by
    rw [hcat] at hm
    simp at hm
    exact hm.2
  have hq0 := quota_backoff_active_eq_zero st hb
  have hlower : lowerCategoryOrEmpty m = .ok (pyLower s) := by
    unfold lowerCategoryOrEmpty
    rw [hcat]
    simp [truthy, hne]
  have htr : truthyOpt (recGet? m "category") = true := by
    rw [hcat]
    simp [truthyOpt, truthy, hne]
  have hz := fun stX => AI_mail_drafter_zero lib o m none stX hdz
  by_cases hde : draft_exists_for (recGet? m "id") (sleepSt 200 (sleepSt 200 st))
  · have heq : process_one_mail cfg lib o m st =
        (sleepSt 200 (sleepSt 200 st), none) := by
      unfold process_one_mail
      simp [hq0, hlower, hnd, htr, hnorm, hde]
    rw [heq]
    refine ⟨rfl, rfl, rfl, ?_, ?_⟩ <;> simp <;> omega
  · have heq : process_one_mail cfg lib o m st =
        (clear_quota_backoff (throttle cfg (sleepSt 200 (sleepSt 200 st))), none) := by
      unfold process_one_mail
      simp [hq0, hlower, hnd, htr, hnorm, hde, hz]
    rw [heq]
    obtain ⟨tc, td, _, tn⟩ := throttle_frame cfg (sleepSt 200 (sleepSt 200 st))
    simp only [sleepSt_now] at tn
    refine ⟨rfl, ?_, ?_, ?_, ?_⟩
    · show (throttle cfg (sleepSt 200 (sleepSt 200 st))).callIdx = st.callIdx
      rw [tc]; rfl
    · show (throttle cfg (sleepSt 200 (sleepSt 200 st))).doc = st.doc
      rw [td]; rfl
    · show (0 : ℤ) ≤ (throttle cfg (sleepSt 200 (sleepSt 200 st))).now
      omega
    · show st.now ≤ (throttle cfg (sleepSt 200 (sleepSt 200 st))).now
      omega

theorem findFresh_mem (l : List Rec) (mail x : Rec)
    (h : findFresh l mail = some x) : x ∈ l :=
  List.mem_of_find?_eq_some h

theorem passGo_ready (cfg : Config) (lib : PromptLib) (o : Oracle)
    (delay : ℤ) (hd : 0 ≤ delay) :
    ∀ (fuel : Nat) (snapshot : List Rec) (idx : Nat) (st : PState),
      (∀ m ∈ (read_inbox st).emails, mailReady m = true) →
      st.backoffUntil ≤ st.now → 0 ≤ st.now →
      (passGo cfg lib o delay fuel snapshot idx st).callIdx = st.callIdx ∧
      (passGo cfg lib o delay fuel snapshot idx st).doc = st.doc ∧
      (passGo cfg lib o delay fuel snapshot idx st).backoffUntil ≤
        (passGo cfg lib o delay fuel snapshot idx st).now ∧
      0 ≤ (passGo cfg lib o delay fuel snapshot idx st).now := by
  intro fuel
  induction fuel with
  | zero => intro snapshot idx st _ hb hn; exact ⟨rfl, rfl, hb, hn⟩
  | succ f ih =>
    intro snapshot idx st h hb hn
    unfold passGo
    by_cases hidx : idx < snapshot.length
    · rw [dif_pos hidx]
      have hq0 := quota_backoff_active_eq_zero st hb
      simp only [hq0, lt_self_iff_false, if_false]
      cases hf : findFresh (read_inbox st).emails (snapshot.get ⟨idx, hidx⟩) with
      | none =>
        simp only [hf]
        exact ih snapshot (idx + 1) st h hb hn
      | some fresh =>
        simp only [hf]
        have hready := h fresh (findFresh_mem _ _ _ hf)
        obtain ⟨p2, pc, pd, pb, pn⟩ :=
          process_one_mail_ready cfg lib o fresh st hready hb hn
        simp only [p2]
        have hdoc2 : (sleepSt delay (process_one_mail cfg lib o fresh st).1).doc
            = st.doc := by rw [sleepSt_doc, pd]
        have h' : ∀ m ∈ (read_inbox
            (sleepSt delay (process_one_mail cfg lib o fresh st).1)).emails,
            mailReady m = true := by
          intro m hm'
          apply h
          have : read_inbox (sleepSt delay (process_one_mail cfg lib o fresh st).1)
              = read_inbox st := by
            unfold read_inbox
            rw [hdoc2]
          rwa [this] at hm'
        have hb' : (sleepSt delay (process_one_mail cfg lib o fresh st).1).backoffUntil
            ≤ (sleepSt delay (process_one_mail cfg lib o fresh st).1).now := by
          rw [sleepSt_backoffUntil, sleepSt_now]
          omega
        have hn' : 0 ≤ (sleepSt delay (process_one_mail cfg lib o fresh st).1).now := by
          rw [sleepSt_now]
          omega
        obtain ⟨c1, c2, c3, c4⟩ := ih snapshot (idx + 1)
          (sleepSt delay (process_one_mail cfg lib o fresh st).1) h' hb' hn'
        refine ⟨?_, ?_, c3, c4⟩
        · rw [c1, sleepSt_callIdx, pc]
        · rw [c2, hdoc2]
    · rw [dif_neg hidx]
      exact ⟨rfl, rfl, hb, hn⟩

theorem process_pass_ready (cfg : Config) (lib : PromptLib) (o : Oracle)
    (fuel : Nat) (delay : ℤ) (st : PState) (hd : 0 ≤ delay)
    (h : ∀ m ∈ (read_inbox st).emails, mailReady m = true)
    (hb : st.backoffUntil ≤ st.now) (hn : 0 ≤ st.now) :
    (process_mails_sequentially cfg lib o fuel delay st).callIdx = st.callIdx ∧
    (process_mails_sequentially cfg lib o fuel delay st).doc = st.doc ∧
    (process_mails_sequentially cfg lib o fuel delay st).backoffUntil ≤
      (process_mails_sequentially cfg lib o fuel delay st).now ∧
    0 ≤ (process_mails_sequentially cfg lib o fuel delay st).now := by
  unfold process_mails_sequentially
  by_cases he : (read_inbox st).emails.isEmpty = true
  · rw [if_pos he]
    exact ⟨rfl, rfl, hb, hn⟩
  · rw [if_neg he]
    exact passGo_ready cfg lib o delay hd fuel (read_inbox st).emails 0 st h hb hn

/-- C2 (amended).  On a mailbox with no draft-category mail in which every
mail already has a non-empty string category (other than `draft`), action
items that normalize to a non-empty list, and `draftable == 0`, running the
orchestrator pass a second time in succession issues zero Model Gateway
calls (and the first pass already left the mailbox document untouched). -/
theorem idempotent_reprocessing_zero_calls (cfg : Config) (lib : PromptLib)
    (o : Oracle) (fuel₁ fuel₂ : Nat) (delay : ℤ) (st : PState)
    (hready : ∀ m ∈ (read_inbox st).emails, mailReady m = true)
    (hb : st.backoffUntil ≤ st.now) (hn : 0 ≤ st.now) (hd : 0 ≤ delay) :
    (process_mails_sequentially cfg lib o fuel₂ delay
        (process_mails_sequentially cfg lib o fuel₁ delay st)).callIdx =
      (process_mails_sequentially cfg lib o fuel₁ delay st).callIdx ∧
    (process_mails_sequentially cfg lib o fuel₁ delay st).doc = st.doc := by
  obtain ⟨c1, c2, c3, c4⟩ :=
    process_pass_ready cfg lib o fuel₁ delay st hd hready hb hn
  have hready' : ∀ m ∈ (read_inbox
      (process_mails_sequentially cfg lib o fuel₁ delay st)).emails,
      mailReady m = true := by
    intro m hm'
    apply hready
    have : read_inbox (process_mails_sequentially cfg lib o fuel₁ delay st)
        = read_inbox st := by
      unfold read_inbox
      rw [c2]
    rwa [this] at hm'
  exact ⟨(process_pass_ready cfg lib o fuel₂ delay _ hd hready' c3 c4).1, c2⟩

/-- A fully processed non-draft mail. -/
def mailReadyW : Rec :=
  [("id", .int 1), ("sender", .str "a@b"), ("subject", .str "s"),
   ("timestamp", .str "t"), ("body", .str "hello"),
   ("category", .str "work"),
   ("action_items", .list [.obj [("task", .str "x")]]),
   ("draftable", .int 0)]

/-- A fresh state over the one processed mail. -/
def stReady : PState := ⟨some ⟨1, [mailReadyW]⟩, 0, 0, [], 0, 0, none⟩

/-- Witness for C2 (amended) at concrete inputs. -/
theorem idempotent_reprocessing_zero_calls_witness :
    (∀ m ∈ (read_inbox stReady).emails, mailReady m = true) ∧
    (process_mails_sequentially defaultConfig libW invalidOracle 1 200
        (process_mails_sequentially defaultConfig libW invalidOracle 1 200
          stReady)).callIdx =
      (process_mails_sequentially defaultConfig libW invalidOracle 1 200
        stReady).callIdx :=
  ⟨by decide,
   (idempotent_reprocessing_zero_calls defaultConfig libW invalidOracle 1 1 200
      stReady (by decide) (by decide) (by decide) (by decide)).1⟩

/-- The claim's precondition as written: non-empty (truthy) category,
non-empty `action_items` list, and `draftable` set (present and not the
not-yet-decided marker `""`). -/
def claimC2Pre (r : Rec) : Bool :=
  truthyOpt (recGet? r "category") &&
  (match recGet? r "action_items" with
   | some (.list l) => !l.isEmpty
   | _ => false) &&
  (match recGet? r "draftable" with
   | some v => !(pyEq v (.str ""))
   | none => false)

/-- A draft-category mail with extracted action items and `draftable = 0`:
the orchestrator still runs action extraction on it in every pass. -/
def cexDraftMail : Rec :=
  [("id", .int 1), ("sender", .str "d@b"), ("subject", .str "Draft reply: s"),
   ("timestamp", .str "t"), ("body", .str "hi"),
   ("category", .str "draft"),
   ("action_items", .list [.obj [("task", .str "t")]]),
   ("draftable", .int 0)]

/-- A processed mail whose `draftable` is a non-zero marker with no
surviving draft record referencing it: the drafter stage calls the
gateway again. -/
def cexMarkerMail : Rec :=
  [("id", .int 2), ("sender", .str "a@b"), ("subject", .str "s"),
   ("timestamp", .str "t"), ("body", .str "hello"),
   ("category", .str "work"),
   ("action_items", .list [.obj [("task", .str "u")]]),
   ("draftable", .str "x")]

/-- The counterexample mailbox and state. -/
def cexSt : PState := ⟨some ⟨2, [cexDraftMail, cexMarkerMail]⟩, 0, 0, [], 0, 0, none⟩

/-- C2 counterexample.  Every mail of this mailbox has non-empty
`category`, non-empty `action_items` and `draftable` set, yet the second
orchestrator pass in succession still issues one Model Gateway call: the
draft-category mail gets its action extraction re-run unconditionally on
every pass. -/
theorem idempotent_reprocessing_counterexample :
    (∀ m ∈ [cexDraftMail, cexMarkerMail], claimC2Pre m = true) ∧
    (∀ m ∈ (read_inbox (process_mails_sequentially defaultConfig libW
        invalidOracle 2 200 cexSt)).emails, claimC2Pre m = true) ∧
    (process_mails_sequentially defaultConfig libW invalidOracle 2 200
        (process_mails_sequentially defaultConfig libW invalidOracle 2 200
          cexSt)).callIdx =
      (process_mails_sequentially defaultConfig libW invalidOracle 2 200
        cexSt).callIdx + 1 := by
  refine ⟨by decide, by decide, by decide⟩

end MailAgent
